import Mathlib

/-!
Verification of the course-orchestration core of CCProjectSynth.

This file gives a shallow embedding, in Lean 4, of the parts of the
TypeScript source that the claims under review are about:

* the work-unit state machine (`detectCourseState`, scanner/state-detector),
* the transcript chunk planner (`createSrtChunks`, agent/result-parser),
* the event emitter (`SynthEventEmitter.emit`, worker/events),
* the shutdown handlers (`handleSignal` of `setupShutdownHandler` and the
  `emergencyHandler` of the entry point),
* the bounded worker pool (`runWorkerPool`, worker/pool),
* the lenient manifest decoder (`normalizeManifest`) and the generator
  result parser (`parseGeneratorResult`).

TypeScript string-literal union types (course states, marker statuses,
result statuses) are modelled as `String`, exactly as the JavaScript
runtime represents them.  Filesystem probes are modelled as explicit
state records passed to the functions that read them.  The worker pool,
which in the source runs `concurrency` async workers over one shared
queue on the single-threaded JS event loop, is modelled as a small-step
machine: a step is either a signal-handler invocation or the settling of
one worker's awaited `processCourse` call together with the synchronous
continuation the worker then runs (record result, update stats, re-check
shutdown, dequeue).  A schedule (list of such events) captures every
interleaving the event loop can produce.
-/

/-! ## Data model (types.ts) -/

/-- Course record built by the scanner (`Course` in types.ts).  `state` is
one of the strings `"pending" | "in_progress" | "complete" | "skipped"`. -/
structure Course where
  path : String
  name : String
  srtFiles : List String
  state : String
  hasSubfolders : Bool
deriving Repr, DecidableEq

/-- Persisted marker record (`ProgressFile` in types.ts): `status` is one of
`"started" | "complete" | "completed"`. -/
structure ProgressFile where
  status : String
  started_at : String
  completed_at : Option String
deriving Repr, DecidableEq

/-- Pool statistics aggregate (`PoolStats` in types.ts). -/
structure PoolStats where
  total : Nat
  completed : Nat
  failed : Nat
  skipped : Nat
  remaining : Nat
deriving Repr, DecidableEq

/-- One SRT transcript unit (`SrtFile` in types.ts). -/
structure SrtFile where
  filename : String
  content : String
deriving Repr, DecidableEq

/-- A chunk produced by the chunk planner (`SrtChunk` in types.ts). -/
structure SrtChunk where
  index : Nat
  total : Nat
  srts : List SrtFile
  overlap_from_previous : List String
deriving Repr, DecidableEq

/-- Manifest project entry (`ProjectEntry` in types.ts).  `generation_status`
is one of `"not_started" | "in_progress" | "complete" | "failed" | "skipped"`,
`complexity` one of `"beginner" | "intermediate" | "advanced"`. -/
structure ProjectEntry where
  id : String
  name : String
  synthesized_name : String
  description : String
  source_srts : List String
  tech_stack : List String
  complexity : String
  generation_status : String
  generated_at : Option String
  output_path : Option String
deriving Repr, DecidableEq

/-- Discovery manifest (`ProjectFindingsManifest` in types.ts). -/
structure ProjectFindingsManifest where
  course_path : String
  discovered_at : String
  discovery_version : String
  has_projects : Bool
  projects : List ProjectEntry
  skipped_srts : List String
  no_project_reason : Option String
deriving Repr, DecidableEq

/-- Result of the discovery phase (`DiscoveryResult` in types.ts). -/
structure DiscoveryResult where
  has_projects : Bool
  project_count : Nat
  skipped_srts : List String
  no_project_reason : Option String
  manifest : Option ProjectFindingsManifest
deriving Repr, DecidableEq

/-- Result of generating one project (`GeneratedProject` in types.ts).
`status` is one of `"success" | "partial" | "failed"`.  The optional
`github` field is irrelevant to the claims and omitted. -/
structure GeneratedProject where
  project_name : String
  output_path : String
  files_created : List String
  status : String
  errors : List String
deriving Repr, DecidableEq

/-- Final result for one course (`CourseResult` in types.ts).  `status` is
one of `"complete" | "no_projects" | "failed"`. -/
structure CourseResult where
  coursePath : String
  status : String
  discovery : DiscoveryResult
  projectsGenerated : List GeneratedProject
  errors : List String
  durationMs : Nat
deriving Repr, DecidableEq

/-- Process-wide shutdown state (`ShutdownController` in types.ts). -/
structure ShutdownController where
  isShuttingDown : Bool
  forceExit : Bool
deriving Repr, DecidableEq

/-! ## Work-unit state machine (scanner/state-detector)

`detectCourseState` reads `progress.json` and probes the output directory
`CODE/__CC_Projects`.  The filesystem facts it consumes are modelled by
`CourseFs`: whether `progress.json` exists, what `readProgressFile` (a
`JSON.parse` that returns `null` on any error) yields for it, and whether
the output directory exists.  The function returns the computed state
together with the filesystem state after any cleanup it performed. -/

/-- Filesystem view of one course directory, as probed by the state
detector: existence of `progress.json`, the parse result of
`readProgressFile` (`none` models a corrupt/unparseable file), and
existence of `CODE/__CC_Projects`. -/
structure CourseFs where
  progressExists : Bool
  progressParse : Option ProgressFile
  ccProjectsExists : Bool
deriving Repr, DecidableEq

/-- Model of `readProgressFile` (utils/file.ts): `readJsonFile` returns the
parsed record, or `null` when the file is missing or unparseable. -/
def readProgressFile (fs : CourseFs) : Option ProgressFile :=
  if fs.progressExists then fs.progressParse else none

/-- Model of `cleanupIncompleteCourse`: deletes `CODE/__CC_Projects` when it
exists (errors during deletion are ignored by the source; deletion is
modelled as succeeding). -/
def cleanupIncompleteCourse (fs : CourseFs) : CourseFs :=
  if fs.ccProjectsExists then { fs with ccProjectsExists := false } else fs

/-- Model of `detectCourseState` (the state-detector variant that probes the
output directory and accepts both `"complete"` and `"completed"`, matching
the spec's marker grammar).  Returns the course state string together with
the filesystem state after cleanup. -/
def detectCourseState (fs : CourseFs) : String × CourseFs :=
  let hasProjects := fs.ccProjectsExists
  if fs.progressExists then
    match readProgressFile fs with
    | some progress =>
      if progress.status == "complete" || progress.status == "completed" then
        if hasProjects then
          ("skipped", fs)
        else
          ("pending", fs)
      else
        ("pending", cleanupIncompleteCourse fs)
    | none =>
      ("pending", cleanupIncompleteCourse fs)
  else if hasProjects then
    ("skipped", fs)
  else
    ("pending", fs)

/-! ## Chunk planner (agent/result-parser.ts, `createSrtChunks`)

The source iterates `for (let i = 0; i < srts.length; i += CHUNK_SIZE -
CHUNK_OVERLAP)`.  The loop is embedded with an explicit fuel argument
(one unit per iteration, `srts.length` is enough since `i` grows by 8
each round), so that the definition is structurally recursive and
kernel-reducible on concrete inputs. -/

/-- Threshold constant from agent/prompts.ts. -/
def LARGE_PROJECT_THRESHOLD : Nat := 15

/-- Window size from agent/prompts.ts: SRTs per chunk. -/
def CHUNK_SIZE : Nat := 10

/-- Overlap between chunks from agent/prompts.ts. -/
def CHUNK_OVERLAP : Nat := 2

/-- The merge step of the loop: `chunks[chunks.length - 1].srts.push(
...chunkSrts.filter(srt => !chunks[chunks.length - 1].srts.includes(srt)))`.
The guard in the loop guarantees `chunks` is nonempty; the `none` branch is
unreachable there. -/
def mergeIntoLastChunk (chunks : List SrtChunk) (chunkSrts : List SrtFile) : List SrtChunk :=
  match chunks.getLast? with
  | some last =>
    chunks.dropLast ++
      [{ last with
         srts := last.srts ++ chunkSrts.filter (fun srt => !last.srts.contains srt) }]
  | none => chunks

/-- One iteration step of the `createSrtChunks` loop.  `i` is the window
start and `(srts.drop i).take CHUNK_SIZE` the window's items
(`srts.slice(i, i + CHUNK_SIZE)`, named `chunkSrts` in the source); a
window smaller than half a chunk (when chunks already exist) is merged
into the last chunk and the loop breaks; otherwise the chunk is pushed
with `overlap_from_previous = srts.slice(max(0, i - CHUNK_OVERLAP), i)`
filenames (`Nat` subtraction models `Math.max(0, i - CHUNK_OVERLAP)`
exactly) and the loop continues at `i + (CHUNK_SIZE - CHUNK_OVERLAP)`. -/
def createSrtChunksGo (srts : List SrtFile) (totalChunks : Nat) :
    Nat → Nat → List SrtChunk → List SrtChunk
  | 0, _, chunks => chunks
  | fuel + 1, i, chunks =>
    if i < srts.length then
      if ((srts.drop i).take CHUNK_SIZE).length < CHUNK_SIZE / 2 ∧ 0 < chunks.length then
        mergeIntoLastChunk chunks ((srts.drop i).take CHUNK_SIZE)
      else
        createSrtChunksGo srts totalChunks fuel (i + (CHUNK_SIZE - CHUNK_OVERLAP))
          (chunks ++ [{ index := chunks.length
                        total := totalChunks
                        srts := (srts.drop i).take CHUNK_SIZE
                        overlap_from_previous :=
                          if i > 0 then
                            ((srts.drop (i - CHUNK_OVERLAP)).take CHUNK_OVERLAP).map
                              (fun s => s.filename)
                          else [] }])
    else chunks

/-- Model of `createSrtChunks`: run the loop, then rewrite every chunk's
`total` to the final chunk count (`chunks.forEach(c => c.total =
chunks.length)`).  The initial `totalChunks` guess is
`Math.ceil(srts.length / CHUNK_SIZE)`. -/
def createSrtChunks (srts : List SrtFile) : List SrtChunk :=
  let totalChunks := (srts.length + (CHUNK_SIZE - 1)) / CHUNK_SIZE
  let chunks := createSrtChunksGo srts totalChunks srts.length 0 []
  chunks.map fun chunk => { chunk with total := chunks.length }

/-- Numbered test input: SRT files named `"1"`, …, `"n"` in order. -/
def numberedSrts (n : Nat) : List SrtFile :=
  (List.range n).map fun k => { filename := toString (k + 1), content := "" }

/-! ## Event bus (worker/events.ts)

`SynthEventEmitter.emit` iterates the subscribed listeners (a JS `Set`,
which iterates in insertion order) and wraps each call in `try { ... }
catch (err) { console.error(...) }`.  A listener is modelled as an opaque
function from the event to `Except String Unit`, where `Except.error`
models the listener throwing.  `emit` produces the observable trace:
one `invoked` entry per listener call (in order), plus a `caughtError`
entry when the listener threw and the catch block logged it.  The return
type `List EmitLog` (rather than `Except ...`) reflects that no listener
exception ever propagates to the publisher. -/

/-- The closed sum of lifecycle events (`SynthEvent` in worker/events.ts). -/
inductive SynthEvent where
  | scanStart
  | scanCourseFound (course : Course)
  | scanComplete (total : Nat) (skipped : Nat)
  | poolStart (workerCount : Nat)
  | poolComplete (stats : PoolStats)
  | workerStart (workerId : Nat) (course : Course)
  | workerDiscoveryStart (workerId : Nat)
  | workerDiscoveryComplete (workerId : Nat) (projectCount : Nat)
  | workerGenerationStart (workerId : Nat) (total : Nat)
  | workerGenerationProgress (workerId : Nat) (current : Nat) (total : Nat) (projectName : String)
  | workerComplete (workerId : Nat) (result : CourseResult)
  | workerError (workerId : Nat) (error : String) (coursePath : String)
  | workerIdle (workerId : Nat)
  | workerGithubStart (workerId : Nat) (projectName : String)
  | workerGithubComplete (workerId : Nat) (projectName : String) (repoUrl : String)
  | workerGithubSkipped (workerId : Nat) (reason : String)
  | workerGithubFailed (workerId : Nat) (projectName : String) (error : String)
  | statsUpdate (stats : PoolStats)
  | shutdownSignal (count : Nat)
  | shutdownComplete
deriving Repr, DecidableEq

/-- A subscribed listener: an identity (JS function object identity, which
is what the `Set` stores) and an opaque body that may throw. -/
structure Listener where
  id : Nat
  run : SynthEvent → Except String Unit

/-- Observable trace entries of one `emit` call: the listener invocations
and the `console.error` logs produced by the catch block. -/
inductive EmitLog where
  | invoked (id : Nat)
  | caughtError (id : Nat) (msg : String)
deriving Repr, DecidableEq

/-- One loop iteration of `emit`: `try { listener(event) } catch (err)
{ console.error('Event listener error:', err) }`. -/
def emitOne (l : Listener) (event : SynthEvent) : List EmitLog :=
  match l.run event with
  | .ok _ => [.invoked l.id]
  | .error msg => [.invoked l.id, .caughtError l.id msg]

/-- Model of `SynthEventEmitter.emit`: invoke every current listener in
subscription order, catching (and logging) anything a listener throws. -/
def SynthEventEmitter.emit (listeners : List Listener) (event : SynthEvent) : List EmitLog :=
  match listeners with
  | [] => []
  | l :: rest => emitOne l event ++ SynthEventEmitter.emit rest event

/-- The listeners a trace shows as invoked, in order. -/
def invokedIds (log : List EmitLog) : List Nat :=
  log.filterMap fun entry =>
    match entry with
    | .invoked i => some i
    | .caughtError _ _ => none

/-! ## Shutdown handlers

Two signal handlers exist in the source.  `setupShutdownHandler`
(worker/shutdown) installs `handleSignal`, which counts interrupts: the
first sets `isShuttingDown`, any further one sets `forceExit` and runs
`setTimeout(() => process.exit(1), 100)`.  The entry point (index.ts)
additionally registers `emergencyHandler` before anything else; on the
second interrupt it marks the linked controller and calls
`process.exit(0)` synchronously.  `process.exit` and `setTimeout` are
modelled as data: `exitedWith` is the code of a synchronous exit,
`scheduledExit` a pending delayed exit. -/

/-- A `setTimeout(() => process.exit(code), delayMs)` call, as data. -/
structure ScheduledExit where
  delayMs : Nat
  code : Nat
deriving Repr, DecidableEq

/-- State owned by `setupShutdownHandler` (worker/shutdown): the shared
controller, the interrupt counter, the `shutdown:signal` event counts
emitted so far, and any scheduled process exit. -/
structure ShutdownHandlerState where
  controller : ShutdownController
  ctrlCCount : Nat
  emitted : List Nat
  scheduledExit : Option ScheduledExit
deriving Repr, DecidableEq

/-- Model of `handleSignal` (worker/shutdown `setupShutdownHandler`): first
interrupt sets `isShuttingDown` and emits `shutdown:signal` count 1; any
further interrupt sets `forceExit`, emits count 2, and schedules
`process.exit(1)` after a 100 ms grace delay. -/
def handleSignal (st : ShutdownHandlerState) : ShutdownHandlerState :=
  let n := st.ctrlCCount + 1
  if n == 1 then
    { st with
      ctrlCCount := n
      controller := { st.controller with isShuttingDown := true }
      emitted := st.emitted ++ [1] }
  else
    { st with
      ctrlCCount := n
      controller := { st.controller with forceExit := true }
      emitted := st.emitted ++ [2]
      scheduledExit := some { delayMs := 100, code := 1 } }

/-- State owned by the emergency handler of index.ts: its own interrupt
counter, the linked shutdown controller (if `linkShutdownController` ran),
and the exit code of a synchronous `process.exit`, if one was called. -/
structure EmergencyState where
  emergencyCtrlCCount : Nat
  linked : Option ShutdownController
  exitedWith : Option Nat
deriving Repr, DecidableEq

/-- Model of `emergencyHandler` (index.ts): every interrupt marks the linked
controller as shutting down; from the second interrupt on it also sets
`forceExit` and calls `process.exit(0)` immediately (no grace delay). -/
def emergencyHandler (st : EmergencyState) : EmergencyState :=
  let n := st.emergencyCtrlCCount + 1
  let linked := st.linked.map fun c =>
    { c with
      isShuttingDown := true
      forceExit := if n ≥ 2 then true else c.forceExit }
  if n ≥ 2 then
    { emergencyCtrlCCount := n, linked := linked, exitedWith := some 0 }
  else
    { emergencyCtrlCCount := n, linked := linked, exitedWith := st.exitedWith }

/-! ## Bounded worker pool (`runWorkerPool`, worker/pool)

`runWorkerPool` filters the skipped courses out, builds one shared queue
of pending courses, initialises `PoolStats`, and spawns `concurrency`
async workers.  On the single-threaded JS event loop each worker runs
synchronously from the top of its `while (true)` loop — shutdown check,
`queue.shift()`, bookkeeping — up to `await processCourse(...)`, where it
suspends.  When that awaited call settles, the worker's continuation runs
atomically: record the result (or catch the rejection and record a failed
result), update the stats, re-check the shutdown flag, and either exit or
dequeue the next course and suspend again.

The machine below mirrors this exactly:

* `spawnWorkers` is the synchronous `for` loop that starts every worker
  (each runs to its first suspension before any promise can settle and
  before any signal callback can run);
* a `PoolEvent.finish w` step is the settling of worker `w`'s awaited
  `processCourse` call together with the continuation described above;
* a `PoolEvent.signal` step is a signal-handler invocation setting
  `isShuttingDown` (the only way the flag changes mid-run).

A schedule — any list of such events — captures every interleaving the
event loop can produce.  The per-course outcome of `processCourse` is an
opaque parameter `exec` (`CourseOutcome.throws` models a rejected
promise, handled by the `catch` branch of the worker loop).

The `activeWorkers.has(workerId)` test at the top of the source loop can
never be true for the tested worker itself (a worker removes its own
entry before looping), so the top-of-loop shutdown check always breaks
when the flag is set; the model reflects that.  The `dequeued` field is a
ghost trace recording every `queue.shift()` that returned a course, used
only to state theorems. -/

/-- Lifecycle of one logical worker between scheduler steps: suspended on
`await processCourse course`, or exited from its loop. -/
inductive WorkerPhase where
  | busy (course : Course)
  | done
deriving Repr, DecidableEq

/-- Whether a worker is suspended on an in-flight course. -/
def WorkerPhase.isBusy : WorkerPhase → Bool
  | .busy _ => true
  | .done => false

/-- How one `await processCourse(course, ...)` settles: a fulfilled
`CourseResult`, or a rejection with a message (the worker's `catch`). -/
inductive CourseOutcome where
  | returns (result : CourseResult)
  | throws (message : String)

/-- State of the pool between event-loop steps. -/
structure PoolState where
  queue : List Course
  results : List CourseResult
  stats : PoolStats
  controller : ShutdownController
  workers : List WorkerPhase
  dequeued : List Course
deriving Repr

/-- Model of `shouldContinueProcessing` (worker/shutdown). -/
def shouldContinueProcessing (controller : ShutdownController) : Bool :=
  !controller.isShuttingDown

/-- Whether a settled course counts as completed in the stats
(`result.status === 'complete' || result.status === 'no_projects'`). -/
def isCompletedStatus (result : CourseResult) : Bool :=
  result.status == "complete" || result.status == "no_projects"

/-- The failed `CourseResult` the pool pushes when `processCourse` rejects
(the `catch` branch of the worker loop). -/
def failedCourseResult (coursePath errorMsg : String) : CourseResult :=
  { coursePath := coursePath
    status := "failed"
    discovery :=
      { has_projects := false
        project_count := 0
        skipped_srts := []
        no_project_reason := none
        manifest := none }
    projectsGenerated := []
    errors := [errorMsg]
    durationMs := 0 }

/-- The result a settled course contributes to the returned list: the
fulfilled result, or the synthesized failed result of the `catch` branch. -/
def resultOfCourse (exec : Course → CourseOutcome) (course : Course) : CourseResult :=
  match exec course with
  | .returns r => r
  | .throws msg => failedCourseResult course.path msg

/-- Bookkeeping the worker runs when its awaited call settles: push the
result (or the synthesized failed result), bump `completed`/`failed`, and
set `remaining := queue.length`. -/
def recordOutcome (st : PoolState) (course : Course) : CourseOutcome → PoolState
  | .returns r =>
    { st with
      results := st.results ++ [r]
      stats :=
        { st.stats with
          completed := if isCompletedStatus r then st.stats.completed + 1 else st.stats.completed
          failed := if isCompletedStatus r then st.stats.failed else st.stats.failed + 1
          remaining := st.queue.length } }
  | .throws msg =>
    { st with
      results := st.results ++ [failedCourseResult course.path msg]
      stats :=
        { st.stats with
          failed := st.stats.failed + 1
          remaining := st.queue.length } }

/-- Top of the worker loop: the shutdown check followed by `queue.shift()`.
Returns the worker's next phase (suspended on a dequeued course, or
exited) and the updated pool state.  The bottom-of-loop shutdown check of
the source re-reads the same unchanged flag, so it coincides with this
top-of-loop check. -/
def workerLoopTop (st : PoolState) : WorkerPhase × PoolState :=
  if !(shouldContinueProcessing st.controller) then
    (.done, st)
  else
    match st.queue with
    | [] => (.done, st)
    | course :: rest =>
      (.busy course, { st with queue := rest, dequeued := st.dequeued ++ [course] })

/-- An event-loop step observable by the pool. -/
inductive PoolEvent where
  | signal
  | finish (workerId : Nat)
deriving Repr, DecidableEq

/-- Settling of worker `w`'s awaited call, as a function of that worker's
current phase: for a suspended worker, run the bookkeeping
(`recordOutcome`) and then the worker's synchronous re-entry into the
loop top (`workerLoopTop`), writing the worker's next phase back into its
slot; for any other phase nothing happens (no such promise exists to
settle). -/
def finishWorker (exec : Course → CourseOutcome) (st : PoolState) (w : Nat) :
    Option WorkerPhase → PoolState
  | some (.busy course) =>
    { (workerLoopTop (recordOutcome st course (exec course))).2 with
      workers := (workerLoopTop (recordOutcome st course (exec course))).2.workers.set w
        (workerLoopTop (recordOutcome st course (exec course))).1 }
  | _ => st

/-- One event-loop step.  `signal` is the signal handler setting
`isShuttingDown`.  `finish w` settles worker `w`'s awaited call and runs
its synchronous continuation. -/
def poolStep (exec : Course → CourseOutcome) (st : PoolState) : PoolEvent → PoolState
  | .signal =>
    { st with controller := { st.controller with isShuttingDown := true } }
  | .finish w => finishWorker exec st w st.workers[w]?

/-- The synchronous `for` loop spawning the workers: each async worker body
starts immediately and runs to its first suspension (or straight to exit)
before the next one starts, and before any event-loop callback can run. -/
def spawnWorkers (concurrency : Nat) (st : PoolState) : PoolState :=
  (List.range concurrency).foldl
    (fun s _ =>
      let first := workerLoopTop s
      { first.2 with workers := first.2.workers ++ [first.1] })
    st

/-- The pool state just after `runWorkerPool` initialised the queue and the
stats, before spawning workers. -/
def initPoolState (pendingCourses : List Course) (skippedCount : Nat)
    (controller : ShutdownController) : PoolState :=
  { queue := pendingCourses
    results := []
    stats :=
      { total := pendingCourses.length + skippedCount
        completed := 0
        failed := 0
        skipped := skippedCount
        remaining := pendingCourses.length }
    controller := controller
    workers := []
    dequeued := [] }

/-- Run the machine from a state through a schedule of event-loop steps. -/
def runPoolFrom (exec : Course → CourseOutcome) (st : PoolState)
    (sched : List PoolEvent) : PoolState :=
  sched.foldl (poolStep exec) st

/-- The initial state `runWorkerPool` hands to the event loop: pending
courses filtered, stats initialised, every worker started. -/
def poolStart (courses : List Course) (concurrency : Nat)
    (controller : ShutdownController) : PoolState :=
  spawnWorkers concurrency
    (initPoolState (courses.filter fun c => c.state == "pending")
      (courses.filter fun c => c.state == "skipped").length
      controller)

/-- `Promise.all(workers)` has resolved: every worker exited its loop. -/
def allWorkersDone (st : PoolState) : Bool :=
  st.workers.all fun ph => !ph.isBusy

/-- Model of `runWorkerPool`: with no pending course it returns `[]` before
creating any stats (`none`); otherwise it returns the results pushed by
the workers over the given schedule, alongside the final stats object. -/
def runWorkerPool (courses : List Course) (concurrency : Nat)
    (controller : ShutdownController) (exec : Course → CourseOutcome)
    (sched : List PoolEvent) : List CourseResult × Option PoolStats :=
  let pendingCourses := courses.filter fun c => c.state == "pending"
  if pendingCourses.length = 0 then
    ([], none)
  else
    let fin := runPoolFrom exec (poolStart courses concurrency controller) sched
    (fin.results, some fin.stats)

/-! ## JavaScript value model

`normalizeManifest` and `parseGeneratorResult` consume untyped values
(`any`) produced by `JSON.parse`.  `JsonValue` models those values, with
`undefined` for `undefined` (a missing property).  The helpers mirror the
JavaScript operations the source uses: truthiness, `typeof x ===
'object'`, property access (which throws on `null`/`undefined` bases),
`a || b`, and `String(x)` conversion. -/

/-- An untyped JavaScript value as produced by `JSON.parse`, plus
`undefined`.  JSON numbers appear in the source only in positions the
claims ignore and are modelled as integers. -/
inductive JsonValue where
  | null
  | undefined
  | bool (b : Bool)
  | num (n : Int)
  | str (s : String)
  | arr (elements : List JsonValue)
  | obj (fields : List (String × JsonValue))

/-- JavaScript truthiness: `null`, `undefined`, `false`, `0` and `""` are
falsy; every object and array (even empty) is truthy. -/
def jsTruthy : JsonValue → Bool
  | .null => false
  | .undefined => false
  | .bool b => b
  | .num n => n != 0
  | .str s => s != ""
  | .arr _ => true
  | .obj _ => true

/-- JavaScript `typeof x === 'object'` (true for `null`, arrays and plain
objects). -/
def jsIsObjectType : JsonValue → Bool
  | .null => true
  | .arr _ => true
  | .obj _ => true
  | _ => false

/-- Property access on a base known not to be `null`/`undefined`: a missing
key (and any key on a non-object) yields `undefined`.  A parsed JSON
object holds each key once. -/
def jsField (v : JsonValue) (key : String) : JsonValue :=
  match v with
  | .obj fields => (fields.lookup key).getD .undefined
  | _ => .undefined

/-- Property access as the runtime performs it: throws a `TypeError` when
the base is `null` or `undefined`. -/
def jsFieldE (v : JsonValue) (key : String) : Except String JsonValue :=
  match v with
  | .null => .error ("TypeError: cannot read properties of null (reading " ++ key ++ ")")
  | .undefined => .error ("TypeError: cannot read properties of undefined (reading " ++ key ++ ")")
  | _ => .ok (jsField v key)

/-- JavaScript `a || b`. -/
def jsOr (a b : JsonValue) : JsonValue :=
  if jsTruthy a then a else b

mutual

/-- JavaScript `String(x)` / array `toString` (arrays join their elements
with commas, rendering `null` and `undefined` elements as empty). -/
def jsToString : JsonValue → String
  | .null => "null"
  | .undefined => "undefined"
  | .bool b => if b then "true" else "false"
  | .num n => toString n
  | .str s => s
  | .arr elements => String.intercalate "," (jsToStringElems elements)
  | .obj _ => "[object Object]"

/-- Rendering of array elements for `jsToString`. -/
def jsToStringElems : List JsonValue → List String
  | [] => []
  | .null :: rest => "" :: jsToStringElems rest
  | .undefined :: rest => "" :: jsToStringElems rest
  | v :: rest => jsToString v :: jsToStringElems rest

end

/-! ## Lenient manifest decoder (`normalizeManifest`, agent/result-parser)

The decoder tolerates schema drift: `project_id` vs `id`, `project_name`
vs `name` vs `synthesized_name`, `source_srts` entries that are strings
or objects with a `file` property.  Values that the source assigns raw
into fields declared `string` are rendered with `jsToString` (the
identity on strings, the declared type).  The decoder can genuinely throw
(a `null` project entry, or `.replace` called on a non-string project
name with no `synthesized_name`), which the `Except` captures; the
caller's `try`/`catch` turns that into a failed discovery.  `new
Date().toISOString()` is the `now` parameter. -/

/-- The regex replace `projectName.replace(/[^a-zA-Z0-9]/g, '')`. -/
def stripNonAlphanumeric (s : String) : String :=
  String.mk (s.toList.filter fun c => c.isAlpha || c.isDigit)

/-- JavaScript `s.padStart(3, '0')`. -/
def padStart3 (s : String) : String :=
  if s.length < 3 then String.mk (List.replicate (3 - s.length) '0') ++ s else s

/-- Model of `validateComplexity` (agent/result-parser). -/
def validateComplexity (v : JsonValue) : String :=
  match v with
  | .str s => if s == "beginner" || s == "intermediate" || s == "advanced" then s else "beginner"
  | _ => "beginner"

/-- Decoding of one `source_srts` / `skipped_srts` entry: a string stays, an
object with a truthy `file` property contributes that property, anything
else is stringified. -/
def srtRefToString (s : JsonValue) : String :=
  match s with
  | .str v => v
  | v =>
    if jsTruthy v && jsIsObjectType v && jsTruthy (jsField v "file") then
      jsToString (jsField v "file")
    else
      jsToString v

/-- Whether a value is `null` or `undefined` (property access on it
throws). -/
def JsonValue.isNullish : JsonValue → Bool
  | .null => true
  | .undefined => true
  | _ => false

/-- The `synthesized_name` computation: `p.synthesized_name ||
"Project_" + projectName.replace(/[^a-zA-Z0-9]/g, '')`.  When
`p.synthesized_name` is falsy and the raw project name is not a string,
`.replace` throws a `TypeError`. -/
def synthesizedNameValue (p projectNameRaw : JsonValue) : Except String JsonValue :=
  if jsTruthy (jsField p "synthesized_name") then
    .ok (jsField p "synthesized_name")
  else
    match projectNameRaw with
    | .str s => .ok (.str ("Project_" ++ stripNonAlphanumeric s))
    | _ => .error "TypeError: projectName.replace is not a function"

/-- Decoding of one entry of `parsed.projects` at position `index`.  Every
successfully decoded entry carries `generation_status := "not_started"`,
`generated_at := null`, `output_path := null`, whatever the input held. -/
def normalizeProject (p : JsonValue) (index : Nat) : Except String ProjectEntry :=
  if p.isNullish then
    .error "TypeError: cannot read properties of null or undefined"
  else
    let projectNameRaw := jsOr (jsField p "project_name") (jsOr (jsField p "name") (.str "Unknown"))
    match synthesizedNameValue p projectNameRaw with
    | .error e => .error e
    | .ok synthesizedRaw =>
      .ok
        { id := jsToString (jsOr (jsField p "id")
            (jsOr (jsField p "project_id") (.str ("proj_" ++ padStart3 (toString (index + 1))))))
          name := jsToString projectNameRaw
          synthesized_name := jsToString synthesizedRaw
          description := jsToString (jsOr (jsField p "description") (.str ""))
          source_srts :=
            match jsField p "source_srts" with
            | .arr refs => refs.map srtRefToString
            | _ => []
          tech_stack :=
            match jsField p "tech_stack" with
            | .arr xs => xs.map jsToString
            | _ => []
          complexity := validateComplexity (jsField p "complexity")
          generation_status := "not_started"
          generated_at := none
          output_path := none }

/-- The `parsed.projects.map((p, index) => ...)` call: decode the entries
in order, threading the index; the first thrown `TypeError` aborts the
whole map. -/
def normalizeProjects : List JsonValue → Nat → Except String (List ProjectEntry)
  | [], _ => .ok []
  | p :: rest, index =>
    match normalizeProject p index with
    | .error e => .error e
    | .ok entry =>
      match normalizeProjects rest (index + 1) with
      | .error e => .error e
      | .ok entries => .ok (entry :: entries)

/-- Model of `normalizeManifest` (agent/result-parser): decode every
project entry (in order, with its index), decode `skipped_srts`, and
default-fill the remaining fields.  The first property access on `parsed`
throws when `parsed` is `null`/`undefined`; every later access then uses
the total `jsField` (the base is known non-nullish). -/
def normalizeManifest (parsed : JsonValue) (coursePath : String) (now : String) :
    Except String ProjectFindingsManifest :=
  match jsFieldE parsed "projects" with
  | .error e => .error e
  | .ok projectsField =>
    let projectsDecoded :=
      match projectsField with
      | .arr ps => normalizeProjects ps 0
      | _ => .ok []
    match projectsDecoded with
    | .error e => .error e
    | .ok projects =>
      .ok
        { course_path := jsToString (jsOr (jsField parsed "course_path") (.str coursePath))
          discovered_at := jsToString (jsOr (jsField parsed "discovered_at")
            (jsOr (jsField parsed "analysis_date") (.str now)))
          discovery_version := jsToString (jsOr (jsField parsed "discovery_version") (.str "1.0"))
          has_projects := !projects.isEmpty
          projects := projects
          skipped_srts :=
            match jsField parsed "skipped_srts" with
            | .arr ss => ss.map srtRefToString
            | _ => []
          no_project_reason :=
            if projects.isEmpty then
              some (jsToString (jsOr (jsField parsed "no_project_reason")
                (.str "No projects identified")))
            else none }

/-- The generation-phase filter of `runCourseAgent` (agent/client):
`manifest.projects.filter(p => p.generation_status === 'not_started')`. -/
def projectsToGenerate (manifest : ProjectFindingsManifest) : List ProjectEntry :=
  manifest.projects.filter fun p => p.generation_status == "not_started"

/-! ## Generator result parser (`parseGeneratorResult`, agent/result-parser)

The parser prefers the filesystem over the returned text: when a course
path was supplied and the project directory exists, the result is built
from a directory scan alone.  `GenFs` models the two filesystem probes
(`existsSync(projectPath)` and `scanProjectFiles(projectPath)`).  The
text fallback's JSON extraction (`extractJson`: regex plus `JSON.parse`)
is an opaque parameter: every theorem about the parser holds for every
possible extraction behaviour. -/

/-- Filesystem view of `CODE/__CC_Projects/<projectName>`: whether the
directory exists, and the relative file paths `scanProjectFiles` finds
inside it. -/
structure GenFs where
  projectDirExists : Bool
  projectFiles : List String
deriving Repr, DecidableEq

/-- Model of `validateStatus` (agent/result-parser). -/
def validateStatus (v : JsonValue) : String :=
  match v with
  | .str s => if s == "success" || s == "partial" || s == "failed" then s else "failed"
  | _ => "failed"

/-- Path join (platform separator irrelevant to the claims). -/
def joinPath (a b : String) : String := a ++ "/" ++ b

/-- The failed result `parseGeneratorResult` builds when neither the
project directory nor parseable JSON exists. -/
def generatorNotFoundResult (projectName : String) : GeneratedProject :=
  { project_name := projectName
    output_path := ""
    files_created := []
    status := "failed"
    errors := ["Project folder not found and could not parse generator result"] }

/-- Model of `parseGeneratorResult` (agent/result-parser).  `coursePath`
is the optional parameter; `""` models both `undefined` and the empty
string, which the source's truthiness test treats identically. -/
def parseGeneratorResult (extractJson : String → Option JsonValue)
    (resultText projectName coursePath : String) (fs : GenFs) : GeneratedProject :=
  if coursePath ≠ "" ∧ fs.projectDirExists = true then
    let projectPath := joinPath (joinPath (joinPath coursePath "CODE") "__CC_Projects") projectName
    let filesCreated := fs.projectFiles
    { project_name := projectName
      output_path := projectPath
      files_created := filesCreated
      status := if 0 < filesCreated.length then "success" else "partial"
      errors := [] }
  else
    match extractJson resultText with
    | none => generatorNotFoundResult projectName
    | some json =>
      if !jsTruthy json then
        generatorNotFoundResult projectName
      else
        { project_name := jsToString (jsOr (jsField json "project_name") (.str projectName))
          output_path := jsToString (jsOr (jsField json "output_path") (.str ""))
          files_created :=
            match jsField json "files_created" with
            | .arr xs => xs.map jsToString
            | _ => []
          status := validateStatus (jsField json "status")
          errors :=
            match jsField json "errors" with
            | .arr xs => xs.map jsToString
            | _ => [] }


/-! ## Specification helpers used by the theorems below -/

/-- The slice of the input the chunk at position `j` is built from:
`srts.slice(step * j, step * j + CHUNK_SIZE)` for the loop stride
`step = CHUNK_SIZE - CHUNK_OVERLAP`. -/
def chunkSliceAt (srts : List SrtFile) (j : Nat) : List SrtFile :=
  (srts.drop ((CHUNK_SIZE - CHUNK_OVERLAP) * j)).take CHUNK_SIZE

/-- The `overlap_from_previous` the loop computes for the chunk at
position `j ≥ 1`: the filenames of the `CHUNK_OVERLAP` input items
immediately before that chunk's start position. -/
def chunkOverlapAt (srts : List SrtFile) (j : Nat) : List String :=
  ((srts.drop ((CHUNK_SIZE - CHUNK_OVERLAP) * j - CHUNK_OVERLAP)).take CHUNK_OVERLAP).map
    (fun s => s.filename)

/-- Number of workers currently suspended on an in-flight course. -/
def busyCount (st : PoolState) : Nat :=
  st.workers.countP (fun ph => ph.isBusy)

/-- The invariant of the pool machine while no shutdown signal has been
received: `pendingLen` is the initial pending-queue length and
`skippedCount` the number of skipped courses.  It ties the stats counters
to the result list, conserves courses across the queue, the in-flight
workers and the results, and records that a worker only exits once the
queue is empty. -/
def PoolInv (pendingLen skippedCount : Nat) (st : PoolState) : Prop :=
  st.controller.isShuttingDown = false ∧
  st.stats.completed + st.stats.failed = st.results.length ∧
  st.results.length + busyCount st + st.queue.length = pendingLen ∧
  st.stats.total = pendingLen + skippedCount ∧
  st.stats.skipped = skippedCount ∧
  (st.queue ≠ [] → ∀ ph ∈ st.workers, ph.isBusy = true)

/-- The schedule-independent conservation core of the pool invariant: the
stats counters tie to the result list and courses are conserved across
the queue, the in-flight workers and the results.  Unlike `PoolInv` it
carries no shutdown-flag conjunct, so every step — a signal included —
preserves it. -/
def PoolCons (pendingLen skippedCount : Nat) (st : PoolState) : Prop :=
  st.stats.completed + st.stats.failed = st.results.length ∧
  st.results.length + busyCount st + st.queue.length = pendingLen ∧
  st.stats.total = pendingLen + skippedCount ∧
  st.stats.skipped = skippedCount

/-- A fulfilled `CourseResult` with status `"complete"` for a course, used
as a concrete `processCourse` outcome in witnesses. -/
def completeResult (course : Course) : CourseResult :=
  { coursePath := course.path
    status := "complete"
    discovery :=
      { has_projects := false
        project_count := 0
        skipped_srts := []
        no_project_reason := none
        manifest := none }
    projectsGenerated := []
    errors := []
    durationMs := 0 }

/-- A `processCourse` behaviour in which every course fulfills with a
`"complete"` result. -/
def execCompleteAll : Course → CourseOutcome :=
  fun course => .returns (completeResult course)

/-! # Theorems -/

/-! ## State machine claims (C4, C6) -/

/-- Claim C4: a work-unit whose persisted marker parses with status
`"complete"` but whose output directory `CODE/__CC_Projects` is absent is
classified `pending` by `detectCourseState` (generation must be resumed),
not `skipped`. -/
theorem c4_complete_marker_without_output_is_pending
    (fs : CourseFs) (p : ProgressFile)
    (hex : fs.progressExists = true)
    (hparse : fs.progressParse = some p)
    (hstatus : p.status = "complete")
    (hout : fs.ccProjectsExists = false) :
    (detectCourseState fs).1 = "pending" ∧ (detectCourseState fs).1 ≠ "skipped" := by
  simp [detectCourseState, readProgressFile, hex, hparse, hstatus, hout]

/-- Witness for C4 at a concrete filesystem state: marker parses as
complete, output directory absent, classification is pending. -/
theorem c4_complete_marker_without_output_is_pending_witness :
    (CourseFs.progressExists ⟨true, some ⟨"complete", "2024-01-01", none⟩, false⟩ = true) ∧
    (CourseFs.progressParse ⟨true, some ⟨"complete", "2024-01-01", none⟩, false⟩ =
      some ⟨"complete", "2024-01-01", none⟩) ∧
    ((detectCourseState ⟨true, some ⟨"complete", "2024-01-01", none⟩, false⟩).1 = "pending" ∧
     (detectCourseState ⟨true, some ⟨"complete", "2024-01-01", none⟩, false⟩).1 ≠ "skipped") :=
  ⟨rfl, rfl,
    c4_complete_marker_without_output_is_pending
      ⟨true, some ⟨"complete", "2024-01-01", none⟩, false⟩
      ⟨"complete", "2024-01-01", none⟩ rfl rfl rfl rfl⟩

/-- Claim C6 as stated is false: a marker that parses with status
`"completed"` — a status other than `"complete"` — while the output
directory exists is classified `skipped` with no cleanup, because the
detector accepts both spellings; the claim demands `pending` plus removal
of the output directory. -/
theorem c6_completed_status_counterexample :
    (detectCourseState ⟨true, some ⟨"completed", "2024-01-01", none⟩, true⟩).1 = "skipped" ∧
    (detectCourseState ⟨true, some ⟨"completed", "2024-01-01", none⟩, true⟩).2.ccProjectsExists = true ∧
    ¬((detectCourseState ⟨true, some ⟨"completed", "2024-01-01", none⟩, true⟩).1 = "pending" ∧
      (detectCourseState ⟨true, some ⟨"completed", "2024-01-01", none⟩, true⟩).2.ccProjectsExists = false) := by
  decide

/-- Claim C6 amended: for a work-unit whose `progress.json` is present but
unparseable, or parses with any status other than `"complete"` **or**
`"completed"`, `detectCourseState` classifies the unit `pending` and
removes any existing `CODE/__CC_Projects` directory; the corrupt-marker
case behaves identically to a `"started"` marker. -/
theorem c6_corrupt_or_started_marker_cleanup
    (fs : CourseFs)
    (hex : fs.progressExists = true)
    (hother : fs.progressParse = none ∨
      ∃ p, fs.progressParse = some p ∧ p.status ≠ "complete" ∧ p.status ≠ "completed") :
    (detectCourseState fs).1 = "pending" ∧
    (detectCourseState fs).2.ccProjectsExists = false ∧
    ∀ startedAt completedAt,
      (detectCourseState { fs with progressParse := none }).1 =
        (detectCourseState { fs with progressParse := some ⟨"started", startedAt, completedAt⟩ }).1 ∧
      (detectCourseState { fs with progressParse := none }).2.ccProjectsExists =
        (detectCourseState { fs with
          progressParse := some ⟨"started", startedAt, completedAt⟩ }).2.ccProjectsExists := by
  refine ⟨?_, ?_, ?_⟩
  · rcases hother with hnone | ⟨p, hp, h1, h2⟩
    · simp [detectCourseState, readProgressFile, hex, hnone]
    · simp [detectCourseState, readProgressFile, hex, hp, h1, h2]
  · rcases hother with hnone | ⟨p, hp, h1, h2⟩
    · simp [detectCourseState, readProgressFile, cleanupIncompleteCourse, hex, hnone]
      split <;> simp_all
    · simp [detectCourseState, readProgressFile, cleanupIncompleteCourse, hex, hp, h1, h2]
      split <;> simp_all
  · intro startedAt completedAt
    simp [detectCourseState, readProgressFile, cleanupIncompleteCourse, hex]
    split <;> simp

/-- Witness for the amended C6 at a concrete filesystem state: a corrupt
marker with a stale output directory yields pending and the directory is
removed, identically to a started marker. -/
theorem c6_corrupt_or_started_marker_cleanup_witness :
    (CourseFs.progressExists ⟨true, none, true⟩ = true) ∧
    ((detectCourseState ⟨true, none, true⟩).1 = "pending" ∧
     (detectCourseState ⟨true, none, true⟩).2.ccProjectsExists = false ∧
     ∀ startedAt completedAt,
       (detectCourseState { (⟨true, none, true⟩ : CourseFs) with progressParse := none }).1 =
         (detectCourseState { (⟨true, none, true⟩ : CourseFs) with
           progressParse := some ⟨"started", startedAt, completedAt⟩ }).1 ∧
       (detectCourseState { (⟨true, none, true⟩ : CourseFs) with progressParse := none
         }).2.ccProjectsExists =
         (detectCourseState { (⟨true, none, true⟩ : CourseFs) with
           progressParse := some ⟨"started", startedAt, completedAt⟩ }).2.ccProjectsExists) :=
  ⟨rfl, c6_corrupt_or_started_marker_cleanup ⟨true, none, true⟩ rfl (Or.inl rfl)⟩

/-! ## Chunk planner claims (C3, C5) -/

/-- Claim C3 as stated is false: on 23 ordered items with window 10 and
overlap 2 the planner advances the window start by `CHUNK_SIZE -
CHUNK_OVERLAP = 8`, producing windows at 0, 8 and 16 of sizes 10, 10 and
7; the final size-7 remainder is not below half a window, so nothing is
merged and 3 chunks are returned, not 2. -/
theorem c3_twentythree_items_counterexample :
    ((createSrtChunks (numberedSrts 23)).map fun c => c.srts.length) = [10, 10, 7] ∧
    (createSrtChunks (numberedSrts 23)).length ≠ 2 := by
  decide

/-- Claim C3 amended: for the ordered input of 23 items with window size
10 and overlap 2, `createSrtChunks` returns exactly 3 chunks whose item
counts are 10, 10 and 7 (the window start advances by `windowSize -
overlap = 8`, and the 7-item remainder is not smaller than half a window,
so no merge occurs), and every returned chunk's `total` field equals 3. -/
theorem c3_twentythree_items_chunking :
    (createSrtChunks (numberedSrts 23)).length = 3 ∧
    ((createSrtChunks (numberedSrts 23)).map fun c => c.srts.length) = [10, 10, 7] ∧
    ∀ c ∈ createSrtChunks (numberedSrts 23), c.total = 3 := by
  decide

/-! ## Event bus claim (C7) -/

/-- Claim C7: for every published event and every list of subscribed
listeners, `SynthEventEmitter.emit` invokes each listener exactly once, in
subscription order, synchronously on the publisher's own control flow; a
throwing listener's exception is caught (and logged) rather than
propagated, and never prevents the invocation of the remaining listeners:
the invocation trace is exactly the listener list, whatever each listener
does. -/
theorem c7_emit_invokes_each_listener_once_in_order
    (listeners : List Listener) (event : SynthEvent) :
    invokedIds (SynthEventEmitter.emit listeners event) = listeners.map fun l => l.id := by
  induction listeners with
  | nil => rfl
  | cons l rest ih =>
    show invokedIds (emitOne l event ++ SynthEventEmitter.emit rest event) = _
    rw [invokedIds, List.filterMap_append]
    cases hrun : l.run event with
    | ok u => simp [emitOne, hrun, invokedIds] at ih ⊢; exact ih
    | error msg => simp [emitOne, hrun, invokedIds] at ih ⊢; exact ih

/-! ## Shutdown claim (C8) -/

/-- Claim C8 as stated is false for the emergency handler that index.ts
registers first: after the second interrupt it calls `process.exit(0)`
synchronously — the exit code is zero and there is no grace delay — even
though it does set `forceExit` on the linked controller. -/
theorem c8_emergency_handler_counterexample :
    (emergencyHandler (emergencyHandler ⟨0, some ⟨false, false⟩, none⟩)).exitedWith = some 0 ∧
    (emergencyHandler (emergencyHandler ⟨0, some ⟨false, false⟩, none⟩)).linked =
      some ⟨true, true⟩ ∧
    ∀ code, (emergencyHandler (emergencyHandler ⟨0, some ⟨false, false⟩, none⟩)).exitedWith =
      some code → code = 0 := by
  refine ⟨rfl, rfl, fun code hc => ?_⟩
  have h0 : (some 0 : Option Nat) = some code := hc
  exact (Option.some_inj.mp h0).symm

/-- Claim C8 amended: on the second interrupt signal, `handleSignal` of
`setupShutdownHandler` sets `forceExit` and schedules `process.exit(1)` —
a non-zero exit code — after a 100 ms grace delay; the emergency handler
of index.ts, however, also sets `forceExit` on the linked controller but
terminates the process immediately with exit code 0, so with it installed
(it is registered first) the forced exit carries exit code zero. -/
theorem c8_second_signal_force_exit
    (st : ShutdownHandlerState) (est : EmergencyState) (ctl : ShutdownController)
    (hcount : st.ctrlCCount = 1)
    (hecount : est.emergencyCtrlCCount = 1)
    (hlink : est.linked = some ctl) :
    (handleSignal st).controller.forceExit = true ∧
    (handleSignal st).scheduledExit = some ⟨100, 1⟩ ∧
    (∀ ex, (handleSignal st).scheduledExit = some ex → ex.code ≠ 0) ∧
    (emergencyHandler est).exitedWith = some 0 ∧
    (emergencyHandler est).linked = some ⟨true, true⟩ := by
  have h1 : (handleSignal st).controller.forceExit = true ∧
      (handleSignal st).scheduledExit = some ⟨100, 1⟩ := by
    simp [handleSignal, hcount]
  refine ⟨h1.1, h1.2, fun ex hex => ?_, ?_, ?_⟩
  · rw [h1.2] at hex
    cases Option.some_inj.mp hex
    decide
  · simp [emergencyHandler, hecount, hlink]
  · simp [emergencyHandler, hecount, hlink]

/-- Witness for the amended C8 at concrete states: one interrupt already
seen by both handlers, controller linked. -/
theorem c8_second_signal_force_exit_witness :
    (ShutdownHandlerState.ctrlCCount ⟨⟨true, false⟩, 1, [1], none⟩ = 1) ∧
    (EmergencyState.emergencyCtrlCCount ⟨1, some ⟨true, false⟩, none⟩ = 1) ∧
    ((handleSignal ⟨⟨true, false⟩, 1, [1], none⟩).controller.forceExit = true ∧
     (handleSignal ⟨⟨true, false⟩, 1, [1], none⟩).scheduledExit = some ⟨100, 1⟩ ∧
     (∀ ex, (handleSignal ⟨⟨true, false⟩, 1, [1], none⟩).scheduledExit = some ex → ex.code ≠ 0) ∧
     (emergencyHandler ⟨1, some ⟨true, false⟩, none⟩).exitedWith = some 0 ∧
     (emergencyHandler ⟨1, some ⟨true, false⟩, none⟩).linked = some ⟨true, true⟩) :=
  ⟨rfl, rfl,
    c8_second_signal_force_exit ⟨⟨true, false⟩, 1, [1], none⟩ ⟨1, some ⟨true, false⟩, none⟩
      ⟨true, false⟩ rfl rfl rfl⟩

/-! ## Generator result parser claim (C10) -/

/-- Claim C10: for every result text (empty or garbled included) and every
behaviour of the JSON text extraction, when a course path is supplied and
the project's output directory exists on disk, `parseGeneratorResult`
never returns status `"failed"`: it returns `"success"` when the
directory scan finds at least one file and `"partial"` otherwise, always
with an empty error list, and the result does not depend on the result
text at all. -/
theorem c10_generator_result_prefers_disk
    (extractJson : String → Option JsonValue)
    (resultText otherText projectName coursePath : String) (fs : GenFs)
    (hcp : coursePath ≠ "")
    (hdir : fs.projectDirExists = true) :
    (parseGeneratorResult extractJson resultText projectName coursePath fs).status ≠ "failed" ∧
    (parseGeneratorResult extractJson resultText projectName coursePath fs).status =
      (if 0 < fs.projectFiles.length then "success" else "partial") ∧
    (parseGeneratorResult extractJson resultText projectName coursePath fs).errors = [] ∧
    parseGeneratorResult extractJson resultText projectName coursePath fs =
      parseGeneratorResult extractJson otherText projectName coursePath fs := by
  have hres : ∀ text, parseGeneratorResult extractJson text projectName coursePath fs =
      { project_name := projectName
        output_path := joinPath (joinPath (joinPath coursePath "CODE") "__CC_Projects") projectName
        files_created := fs.projectFiles
        status := if 0 < fs.projectFiles.length then "success" else "partial"
        errors := [] } := by
    intro text
    unfold parseGeneratorResult
    rw [if_pos (And.intro hcp hdir)]
  rw [hres resultText, hres otherText]
  refine ⟨?_, rfl, rfl, rfl⟩
  show (if 0 < fs.projectFiles.length then "success" else "partial") ≠ "failed"
  split <;> decide

/-- Witness for C10 at a concrete input: garbled versus empty result text,
existing project directory with one scanned file. -/
theorem c10_generator_result_prefers_disk_witness :
    ("/course" ≠ "") ∧
    (GenFs.projectDirExists ⟨true, ["index.js"]⟩ = true) ∧
    ((parseGeneratorResult (fun _ => none) "garbled %% text" "App" "/course"
        ⟨true, ["index.js"]⟩).status ≠ "failed" ∧
     (parseGeneratorResult (fun _ => none) "garbled %% text" "App" "/course"
        ⟨true, ["index.js"]⟩).status =
       (if 0 < (GenFs.projectFiles ⟨true, ["index.js"]⟩).length then "success" else "partial") ∧
     (parseGeneratorResult (fun _ => none) "garbled %% text" "App" "/course"
        ⟨true, ["index.js"]⟩).errors = [] ∧
     parseGeneratorResult (fun _ => none) "garbled %% text" "App" "/course" ⟨true, ["index.js"]⟩ =
       parseGeneratorResult (fun _ => none) "" "App" "/course" ⟨true, ["index.js"]⟩) :=
  ⟨by decide, rfl,
    c10_generator_result_prefers_disk (fun _ => none) "garbled %% text" "" "App" "/course"
      ⟨true, ["index.js"]⟩ (by decide) rfl⟩

/-! ## Manifest normalization claim (C9) -/

/-- Every successfully decoded project entry carries
`generation_status = "not_started"`, whatever the input held. -/
theorem normalizeProject_generation_status (p : JsonValue) (index : Nat) (entry : ProjectEntry)
    (h : normalizeProject p index = .ok entry) :
    entry.generation_status = "not_started" := by
  unfold normalizeProject at h
  split at h
  · exact absurd h (by simp)
  · simp only [] at h
    cases hs : synthesizedNameValue p
        (jsOr (jsField p "project_name") (jsOr (jsField p "name") (.str "Unknown"))) with
    | error e => rw [hs] at h; cases h
    | ok synth => rw [hs] at h; cases h; rfl

/-- Every entry of a successfully decoded project list carries
`generation_status = "not_started"`. -/
theorem normalizeProjects_generation_status :
    ∀ (ps : List JsonValue) (index : Nat) (entries : List ProjectEntry),
      normalizeProjects ps index = .ok entries →
      ∀ entry ∈ entries, entry.generation_status = "not_started" := by
  intro ps
  induction ps with
  | nil =>
    intro index entries h entry hmem
    cases h
    cases hmem
  | cons p rest ih =>
    intro index entries h entry hmem
    unfold normalizeProjects at h
    cases hp : normalizeProject p index with
    | error e => rw [hp] at h; cases h
    | ok first =>
      rw [hp] at h
      cases hrest : normalizeProjects rest (index + 1) with
      | error e => rw [hrest] at h; cases h
      | ok others =>
        rw [hrest] at h
        cases h
        rcases List.mem_cons.mp hmem with hfirst | hothers
        · exact hfirst ▸ normalizeProject_generation_status p index first hp
        · exact ih (index + 1) others hrest entry hothers

/-- Claim C9: for every input manifest shape, `normalizeManifest` sets
`generation_status` to `"not_started"` on every project of the normalized
manifest, regardless of any status recorded in the input; consequently
the pipeline's filter for not-yet-started sub-tasks
(`projectsToGenerate`, from `runCourseAgent`) selects every manifest
project — so previously generated projects are re-generated when a
persisted manifest is reused on resume. -/
theorem c9_normalize_manifest_resets_generation_status
    (parsed : JsonValue) (coursePath now : String) (manifest : ProjectFindingsManifest)
    (h : normalizeManifest parsed coursePath now = .ok manifest) :
    (∀ p ∈ manifest.projects, p.generation_status = "not_started") ∧
    projectsToGenerate manifest = manifest.projects := by
  have hstatus : ∀ p ∈ manifest.projects, p.generation_status = "not_started" := by
    unfold normalizeManifest at h
    cases hpf : jsFieldE parsed "projects" with
    | error e => rw [hpf] at h; cases h
    | ok projectsField =>
      rw [hpf] at h
      simp only at h
      cases hdec : (match projectsField with
          | .arr ps => normalizeProjects ps 0
          | _ => Except.ok []) with
      | error e => rw [hdec] at h; cases h
      | ok projects =>
        rw [hdec] at h
        cases h
        intro p hp
        cases projectsField with
        | arr ps => exact normalizeProjects_generation_status ps 0 projects hdec p hp
        | null => cases hdec; cases hp
        | undefined => cases hdec; cases hp
        | bool b => cases hdec; cases hp
        | num n => cases hdec; cases hp
        | str s => cases hdec; cases hp
        | obj fields => cases hdec; cases hp
  refine ⟨hstatus, ?_⟩
  unfold projectsToGenerate
  rw [List.filter_eq_self]
  intro p hp
  simp [hstatus p hp]

/-- Witness for C9 at a concrete manifest input: one project whose input
even claims `generation_status: "complete"` is reset to `"not_started"`
and selected by the generation filter. -/
theorem c9_normalize_manifest_resets_generation_status_witness :
    (normalizeManifest
        (.obj [("projects", .arr [.obj [("name", .str "A"),
          ("generation_status", .str "complete")]])]) "/c" "t" =
      .ok
        { course_path := "/c"
          discovered_at := "t"
          discovery_version := "1.0"
          has_projects := true
          projects := [{ id := "proj_001", name := "A", synthesized_name := "Project_A"
                         description := "", source_srts := [], tech_stack := []
                         complexity := "beginner", generation_status := "not_started"
                         generated_at := none, output_path := none }]
          skipped_srts := []
          no_project_reason := none }) ∧
    ((∀ p ∈ ProjectFindingsManifest.projects
        { course_path := "/c"
          discovered_at := "t"
          discovery_version := "1.0"
          has_projects := true
          projects := [{ id := "proj_001", name := "A", synthesized_name := "Project_A"
                         description := "", source_srts := [], tech_stack := []
                         complexity := "beginner", generation_status := "not_started"
                         generated_at := none, output_path := none }]
          skipped_srts := []
          no_project_reason := none }, p.generation_status = "not_started") ∧
     projectsToGenerate
        { course_path := "/c"
          discovered_at := "t"
          discovery_version := "1.0"
          has_projects := true
          projects := [{ id := "proj_001", name := "A", synthesized_name := "Project_A"
                         description := "", source_srts := [], tech_stack := []
                         complexity := "beginner", generation_status := "not_started"
                         generated_at := none, output_path := none }]
          skipped_srts := []
          no_project_reason := none } =
       ProjectFindingsManifest.projects
        { course_path := "/c"
          discovered_at := "t"
          discovery_version := "1.0"
          has_projects := true
          projects := [{ id := "proj_001", name := "A", synthesized_name := "Project_A"
                         description := "", source_srts := [], tech_stack := []
                         complexity := "beginner", generation_status := "not_started"
                         generated_at := none, output_path := none }]
          skipped_srts := []
          no_project_reason := none }) :=
  ⟨by rfl,
    c9_normalize_manifest_resets_generation_status
      (.obj [("projects", .arr [.obj [("name", .str "A"),
        ("generation_status", .str "complete")]])]) "/c" "t"
      { course_path := "/c"
        discovered_at := "t"
        discovery_version := "1.0"
        has_projects := true
        projects := [{ id := "proj_001", name := "A", synthesized_name := "Project_A"
                       description := "", source_srts := [], tech_stack := []
                       complexity := "beginner", generation_status := "not_started"
                       generated_at := none, output_path := none }]
        skipped_srts := []
        no_project_reason := none }
      (by rfl)⟩

/-! ## Chunk planner shape lemmas and claim C5 -/

/-- Merging into the last chunk keeps the chunk count. -/
theorem mergeIntoLastChunk_length (chunks : List SrtChunk) (chunkSrts : List SrtFile) :
    (mergeIntoLastChunk chunks chunkSrts).length = chunks.length := by
  unfold mergeIntoLastChunk
  cases hlast : chunks.getLast? with
  | none => rfl
  | some last =>
    have : chunks ≠ [] := by
      intro hnil
      rw [hnil] at hlast
      cases hlast
    have hpos : 0 < chunks.length := List.length_pos.mpr this
    simp [List.length_dropLast]
    omega

/-- Merging into the last chunk leaves every earlier chunk untouched. -/
theorem mergeIntoLastChunk_get_of_lt (chunks : List SrtChunk) (chunkSrts : List SrtFile)
    (j : Nat) (hj : j < chunks.length - 1) :
    (mergeIntoLastChunk chunks chunkSrts)[j]? = chunks[j]? := by
  unfold mergeIntoLastChunk
  cases hlast : chunks.getLast? with
  | none => rfl
  | some last =>
    rw [List.getElem?_append, if_pos (by rw [List.length_dropLast]; omega),
      List.getElem?_dropLast, if_pos (by omega)]

/-- Merging into the last chunk changes no chunk's `overlap_from_previous`:
every chunk of the result has the overlap of the chunk of `chunks` at the
same position. -/
theorem mergeIntoLastChunk_overlap (chunks : List SrtChunk) (chunkSrts : List SrtFile)
    (j : Nat) (c : SrtChunk) (hj : (mergeIntoLastChunk chunks chunkSrts)[j]? = some c) :
    ∃ c', chunks[j]? = some c' ∧ c.overlap_from_previous = c'.overlap_from_previous := by
  unfold mergeIntoLastChunk at hj
  cases hlast : chunks.getLast? with
  | none =>
    rw [hlast] at hj
    exact ⟨c, hj, rfl⟩
  | some last =>
    rw [hlast] at hj
    have hne : chunks ≠ [] := by
      intro hnil
      rw [hnil] at hlast
      cases hlast
    have hpos : 0 < chunks.length := List.length_pos.mpr hne
    have hdlen : chunks.dropLast.length = chunks.length - 1 := List.length_dropLast chunks
    by_cases hjlt : j < chunks.length - 1
    · rw [List.getElem?_append, if_pos (by omega), List.getElem?_dropLast,
        if_pos (by omega)] at hj
      exact ⟨c, hj, rfl⟩
    · have hjbound : j < chunks.length := by
        have := (List.getElem?_eq_some.mp hj).1
        simp [hdlen] at this
        omega
      have hjeq : j = chunks.length - 1 := by omega
      rw [List.getElem?_append, if_neg (by omega)] at hj
      rw [hdlen, hjeq, Nat.sub_self] at hj
      simp at hj
      refine ⟨last, ?_, ?_⟩
      · rw [hjeq, ← List.getLast?_eq_getElem?]
        exact hlast
      · rw [← hj]

/-- Loop invariant of `createSrtChunksGo`: whenever the accumulator's
chunks carry the positional slices and overlaps of the source loop, so
does the loop's result — for `srts`, every chunk except possibly the last
(which the merge step may extend), and for `overlap_from_previous`, every
chunk after the first (the merge step never touches overlap fields). -/
theorem createSrtChunksGo_shape (srts : List SrtFile) (tc : Nat) :
    ∀ (fuel i : Nat) (acc : List SrtChunk),
      i = (CHUNK_SIZE - CHUNK_OVERLAP) * acc.length →
      (∀ (j : Nat) (c : SrtChunk), acc[j]? = some c → c.srts = chunkSliceAt srts j) →
      (∀ (j : Nat) (c : SrtChunk), acc[j]? = some c → 0 < j →
        c.overlap_from_previous = chunkOverlapAt srts j) →
      (∀ (j : Nat) (c : SrtChunk),
          (createSrtChunksGo srts tc fuel i acc)[j]? = some c →
          j + 1 < (createSrtChunksGo srts tc fuel i acc).length →
          c.srts = chunkSliceAt srts j) ∧
      (∀ (j : Nat) (c : SrtChunk),
          (createSrtChunksGo srts tc fuel i acc)[j]? = some c → 0 < j →
          c.overlap_from_previous = chunkOverlapAt srts j) := by
  intro fuel
  induction fuel with
  | zero =>
    intro i acc hi hsrts hovl
    exact ⟨fun j c hj _ => hsrts j c hj, hovl⟩
  | succ fuel ih =>
    intro i acc hi hsrts hovl
    rw [createSrtChunksGo]
    by_cases hlt : i < srts.length
    · rw [if_pos hlt]
      by_cases hsmall : ((srts.drop i).take CHUNK_SIZE).length < CHUNK_SIZE / 2 ∧ 0 < acc.length
      · -- merge branch: only the last chunk's `srts` change
        rw [if_pos hsmall]
        have haccne : acc ≠ [] := List.length_pos.mp hsmall.2
        constructor
        · intro j c hj hjlt
          rw [mergeIntoLastChunk_length] at hjlt
          rw [mergeIntoLastChunk_get_of_lt _ _ j (by omega)] at hj
          exact hsrts j c hj
        · intro j c hj hjpos
          obtain ⟨c', hc', hovleq⟩ := mergeIntoLastChunk_overlap _ _ j c hj
          rw [hovleq]
          exact hovl j c' hc' hjpos
      · -- push branch: the new chunk carries the positional slice and overlap
        rw [if_neg hsmall]
        refine ih (i + (CHUNK_SIZE - CHUNK_OVERLAP)) _ ?_ ?_ ?_
        · simp [hi, Nat.mul_succ]
        · intro j c hj
          rcases Nat.lt_trichotomy j acc.length with hjlt | hjeq | hjgt
          · rw [List.getElem?_append, if_pos (by simpa using hjlt)] at hj
            exact hsrts j c hj
          · rw [hjeq, List.getElem?_concat_length] at hj
            cases hj
            simp [chunkSliceAt, hi, hjeq]
          · rw [List.getElem?_append, if_neg (by omega)] at hj
            have hne : j - acc.length ≠ 0 := by omega
            rw [List.getElem?_cons, if_neg hne] at hj
            simp at hj
        · intro j c hj hjpos
          rcases Nat.lt_trichotomy j acc.length with hjlt | hjeq | hjgt
          · rw [List.getElem?_append, if_pos (by simpa using hjlt)] at hj
            exact hovl j c hj hjpos
          · rw [hjeq, List.getElem?_concat_length] at hj
            cases hj
            have hipos : 0 < i := by
              have hstep : 0 < CHUNK_SIZE - CHUNK_OVERLAP := by decide
              rw [hi]
              exact Nat.mul_pos hstep (hjeq ▸ hjpos)
            show (if i > 0 then _ else []) = _
            rw [if_pos hipos]
            simp only [chunkOverlapAt, hi, hjeq]
          · rw [List.getElem?_append, if_neg (by omega)] at hj
            have hne : j - acc.length ≠ 0 := by omega
            rw [List.getElem?_cons, if_neg hne] at hj
            simp at hj
    · rw [if_neg hlt]
      exact ⟨fun j c hj _ => hsrts j c hj, hovl⟩

/-- Shape of `createSrtChunks` output: every chunk except possibly the
last holds the positional slice of the input, and every chunk after the
first carries as `overlap_from_previous` the filenames of the
`CHUNK_OVERLAP` input items immediately before its start position (the
final `total`-rewriting map touches neither field). -/
theorem createSrtChunks_shape (srts : List SrtFile) :
    (∀ (j : Nat) (c : SrtChunk), (createSrtChunks srts)[j]? = some c →
      j + 1 < (createSrtChunks srts).length → c.srts = chunkSliceAt srts j) ∧
    (∀ (j : Nat) (c : SrtChunk), (createSrtChunks srts)[j]? = some c → 0 < j →
      c.overlap_from_previous = chunkOverlapAt srts j) := by
  have hgo := createSrtChunksGo_shape srts ((srts.length + (CHUNK_SIZE - 1)) / CHUNK_SIZE)
    srts.length 0 [] (by simp) (by intro j c hj; cases hj) (by intro j c hj; cases hj)
  unfold createSrtChunks
  constructor
  · intro j c hj hjlt
    rw [List.getElem?_map] at hj
    rw [List.length_map] at hjlt
    cases hu : (createSrtChunksGo srts ((srts.length + (CHUNK_SIZE - 1)) / CHUNK_SIZE)
        srts.length 0 [])[j]? with
    | none => rw [hu] at hj; cases hj
    | some c' =>
      rw [hu] at hj
      cases hj
      exact hgo.1 j c' hu hjlt
  · intro j c hj hjpos
    rw [List.getElem?_map] at hj
    cases hu : (createSrtChunksGo srts ((srts.length + (CHUNK_SIZE - 1)) / CHUNK_SIZE)
        srts.length 0 [])[j]? with
    | none => rw [hu] at hj; cases hj
    | some c' =>
      rw [hu] at hj
      cases hj
      exact hgo.2 j c' hu hjpos

/-- Claim C5 as stated is false: for the 13-item input, the second chunk's
`overlap_from_previous` is `["7", "8"]` — the two items immediately before
its start position 8 — while the 2-item suffix of the first chunk's items
(`"1"` … `"10"`) is `["9", "10"]`. -/
theorem c5_overlap_suffix_counterexample :
    ((createSrtChunks (numberedSrts 13))[1]?.map fun c => c.overlap_from_previous) =
      some ["7", "8"] ∧
    ((createSrtChunks (numberedSrts 13))[0]?.map fun c =>
      (c.srts.map fun s => s.filename).drop (c.srts.length - CHUNK_OVERLAP)) =
      some ["9", "10"] ∧
    (["7", "8"] : List String) ≠ ["9", "10"] := by
  decide

/-- Claim C5 amended: for every input and every produced chunk after the
first, that chunk's `overlap_from_previous` equals the filenames of the
`CHUNK_OVERLAP`-sized slice of the immediately preceding chunk's items
that ends `CHUNK_OVERLAP` positions before that chunk's end — the items
just before the current chunk's start — not the preceding chunk's
suffix. -/
theorem c5_overlap_is_pre_window_slice (srts : List SrtFile) (k : Nat) (prev cur : SrtChunk)
    (hprev : (createSrtChunks srts)[k]? = some prev)
    (hcur : (createSrtChunks srts)[k + 1]? = some cur) :
    cur.overlap_from_previous =
      ((prev.srts.drop (CHUNK_SIZE - 2 * CHUNK_OVERLAP)).take CHUNK_OVERLAP).map
        (fun s => s.filename) := by
  have hlen : k + 1 < (createSrtChunks srts).length := (List.getElem?_eq_some.mp hcur).1
  have hs0 : prev.srts = chunkSliceAt srts k := (createSrtChunks_shape srts).1 k prev hprev hlen
  have ho1 : cur.overlap_from_previous = chunkOverlapAt srts (k + 1) :=
    (createSrtChunks_shape srts).2 (k + 1) cur hcur (Nat.succ_pos k)
  rw [ho1, hs0]
  show chunkOverlapAt srts (k + 1) =
    (((chunkSliceAt srts k).drop (CHUNK_SIZE - 2 * CHUNK_OVERLAP)).take CHUNK_OVERLAP).map
      (fun s => s.filename)
  unfold chunkOverlapAt chunkSliceAt
  rw [List.drop_take, List.drop_drop, List.take_take]
  simp only [CHUNK_SIZE, CHUNK_OVERLAP]
  norm_num
  congr 2

/-- Witness for the amended C5 at the 13-item input: the second chunk's
overlap `["7", "8"]` equals positions 6–7 of the first chunk's ten
items. -/
theorem c5_overlap_is_pre_window_slice_witness :
    ((createSrtChunks (numberedSrts 13))[0]? =
      some ⟨0, 2, (numberedSrts 13).take 10, []⟩) ∧
    ((createSrtChunks (numberedSrts 13))[1]? =
      some ⟨1, 2, (numberedSrts 13).drop 8, ["7", "8"]⟩) ∧
    SrtChunk.overlap_from_previous ⟨1, 2, (numberedSrts 13).drop 8, ["7", "8"]⟩ =
      ((SrtChunk.srts ⟨0, 2, (numberedSrts 13).take 10, []⟩ |>.drop
          (CHUNK_SIZE - 2 * CHUNK_OVERLAP)).take CHUNK_OVERLAP).map (fun s => s.filename) :=
  ⟨by decide, by decide,
    c5_overlap_is_pre_window_slice (numberedSrts 13) 0
      ⟨0, 2, (numberedSrts 13).take 10, []⟩
      ⟨1, 2, (numberedSrts 13).drop 8, ["7", "8"]⟩
      (by decide) (by decide)⟩

/-! ## Worker pool lemmas and claims C1, C2 -/

/-- Defining equation of `finishWorker` on a suspended slot. -/
theorem finishWorker_busy (exec : Course → CourseOutcome) (st : PoolState) (w : Nat)
    (c : Course) :
    finishWorker exec st w (some (.busy c)) =
      { (workerLoopTop (recordOutcome st c (exec c))).2 with
        workers := (workerLoopTop (recordOutcome st c (exec c))).2.workers.set w
          (workerLoopTop (recordOutcome st c (exec c))).1 } := rfl

/-- The worker's settle bookkeeping changes neither the controller, the
queue, the workers, nor the dequeue trace. -/
theorem recordOutcome_controller (st : PoolState) (c : Course) (oc : CourseOutcome) :
    (recordOutcome st c oc).controller = st.controller := by
  cases oc <;> rfl

/-- The settle bookkeeping leaves the worker slots unchanged. -/
theorem recordOutcome_workers (st : PoolState) (c : Course) (oc : CourseOutcome) :
    (recordOutcome st c oc).workers = st.workers := by
  cases oc <;> rfl

/-- The settle bookkeeping leaves the queue unchanged. -/
theorem recordOutcome_queue (st : PoolState) (c : Course) (oc : CourseOutcome) :
    (recordOutcome st c oc).queue = st.queue := by
  cases oc <;> rfl

/-- The settle bookkeeping leaves the dequeue trace unchanged. -/
theorem recordOutcome_dequeued (st : PoolState) (c : Course) (oc : CourseOutcome) :
    (recordOutcome st c oc).dequeued = st.dequeued := by
  cases oc <;> rfl

/-- The settle bookkeeping pushes exactly the settled course's result. -/
theorem recordOutcome_results (exec : Course → CourseOutcome) (st : PoolState) (c : Course) :
    (recordOutcome st c (exec c)).results = st.results ++ [resultOfCourse exec c] := by
  cases h : exec c <;> simp [recordOutcome, resultOfCourse, h]

/-- The settle bookkeeping bumps exactly one of `completed`/`failed`. -/
theorem recordOutcome_completed_failed (st : PoolState) (c : Course) (oc : CourseOutcome) :
    (recordOutcome st c oc).stats.completed + (recordOutcome st c oc).stats.failed =
      st.stats.completed + st.stats.failed + 1 := by
  cases oc with
  | returns r =>
    simp only [recordOutcome]
    split <;> omega
  | throws m => simp [recordOutcome]; omega

/-- The settle bookkeeping keeps `total` and `skipped`. -/
theorem recordOutcome_total_skipped (st : PoolState) (c : Course) (oc : CourseOutcome) :
    (recordOutcome st c oc).stats.total = st.stats.total ∧
    (recordOutcome st c oc).stats.skipped = st.stats.skipped := by
  cases oc <;> exact ⟨rfl, rfl⟩

/-- The loop top under a set shutdown flag: the worker exits at once,
touching nothing. -/
theorem workerLoopTop_shutdown (st : PoolState) (h : st.controller.isShuttingDown = true) :
    workerLoopTop st = (.done, st) := by
  simp [workerLoopTop, shouldContinueProcessing, h]

/-- Full case analysis of the loop top: the worker exits with the state
untouched (shutdown set, or empty queue), or it dequeues the head of the
queue and suspends on it. -/
theorem workerLoopTop_char (st : PoolState) :
    (workerLoopTop st = (.done, st) ∧ (st.controller.isShuttingDown = true ∨ st.queue = [])) ∨
    (∃ c rest, st.queue = c :: rest ∧ st.controller.isShuttingDown = false ∧
      workerLoopTop st =
        (.busy c, { st with queue := rest, dequeued := st.dequeued ++ [c] })) := by
  by_cases h : st.controller.isShuttingDown = true
  · exact Or.inl ⟨workerLoopTop_shutdown st h, Or.inl h⟩
  · have hb : st.controller.isShuttingDown = false := by
      cases hc : st.controller.isShuttingDown
      · rfl
      · exact absurd hc h
    cases hq : st.queue with
    | nil =>
      refine Or.inl ⟨?_, Or.inr rfl⟩
      simp [workerLoopTop, shouldContinueProcessing, hb, hq]
    | cons c rest =>
      refine Or.inr ⟨c, rest, rfl, hb, ?_⟩
      simp [workerLoopTop, shouldContinueProcessing, hb, hq]

/-- The loop top leaves the worker slots unchanged (it only reads the
flag and pops the queue). -/
theorem workerLoopTop_workers (st : PoolState) :
    (workerLoopTop st).2.workers = st.workers := by
  rcases workerLoopTop_char st with ⟨heq, _⟩ | ⟨c, rest, _, _, heq⟩ <;> rw [heq]

/-- The loop top leaves the result list unchanged. -/
theorem workerLoopTop_results (st : PoolState) :
    (workerLoopTop st).2.results = st.results := by
  rcases workerLoopTop_char st with ⟨heq, _⟩ | ⟨c, rest, _, _, heq⟩ <;> rw [heq]

/-- The loop top leaves the controller unchanged. -/
theorem workerLoopTop_controller (st : PoolState) :
    (workerLoopTop st).2.controller = st.controller := by
  rcases workerLoopTop_char st with ⟨heq, _⟩ | ⟨c, rest, _, _, heq⟩ <;> rw [heq]

/-- The loop top leaves the stats unchanged. -/
theorem workerLoopTop_stats (st : PoolState) :
    (workerLoopTop st).2.stats = st.stats := by
  rcases workerLoopTop_char st with ⟨heq, _⟩ | ⟨c, rest, _, _, heq⟩ <;> rw [heq]

/-- Once the shutdown flag is set, one step neither dequeues (the ghost
trace is frozen) nor resets the flag. -/
theorem poolStep_shutdown_frozen (exec : Course → CourseOutcome) (st : PoolState)
    (ev : PoolEvent) (h : st.controller.isShuttingDown = true) :
    (poolStep exec st ev).dequeued = st.dequeued ∧
    (poolStep exec st ev).controller.isShuttingDown = true := by
  cases ev with
  | signal => exact ⟨rfl, rfl⟩
  | finish w =>
    show (finishWorker exec st w st.workers[w]?).dequeued = st.dequeued ∧
      (finishWorker exec st w st.workers[w]?).controller.isShuttingDown = true
    cases hw : st.workers[w]? with
    | none => exact ⟨rfl, h⟩
    | some ph =>
      cases ph with
      | done => exact ⟨rfl, h⟩
      | busy c =>
        have hctl : (recordOutcome st c (exec c)).controller = st.controller :=
          recordOutcome_controller st c (exec c)
        have hlt : workerLoopTop (recordOutcome st c (exec c)) =
            (.done, recordOutcome st c (exec c)) :=
          workerLoopTop_shutdown _ (by rw [hctl]; exact h)
        show (finishWorker exec st w (some (.busy c))).dequeued = st.dequeued ∧
          (finishWorker exec st w (some (.busy c))).controller.isShuttingDown = true
        rw [finishWorker_busy, hlt]
        exact ⟨recordOutcome_dequeued st c (exec c), by rw [hctl]; exact h⟩

/-- Once the shutdown flag is set, no later step of any schedule dequeues. -/
theorem runPoolFrom_shutdown_frozen (exec : Course → CourseOutcome) :
    ∀ (sched : List PoolEvent) (st : PoolState),
      st.controller.isShuttingDown = true →
      (runPoolFrom exec st sched).dequeued = st.dequeued ∧
      (runPoolFrom exec st sched).controller.isShuttingDown = true := by
  intro sched
  induction sched with
  | nil => exact fun st h => ⟨rfl, h⟩
  | cons ev rest ih =>
    intro st h
    have hstep := poolStep_shutdown_frozen exec st ev h
    have htail := ih (poolStep exec st ev) hstep.2
    exact ⟨htail.1.trans hstep.1, htail.2⟩

/-- A step only appends to the result list. -/
theorem poolStep_results_mono (exec : Course → CourseOutcome) (st : PoolState)
    (ev : PoolEvent) (r : CourseResult) (h : r ∈ st.results) :
    r ∈ (poolStep exec st ev).results := by
  cases ev with
  | signal => exact h
  | finish w =>
    show r ∈ (finishWorker exec st w st.workers[w]?).results
    cases hw : st.workers[w]? with
    | none => exact h
    | some ph =>
      cases ph with
      | done => exact h
      | busy c =>
        show r ∈ ((workerLoopTop (recordOutcome st c (exec c))).2).results
        rw [workerLoopTop_results, recordOutcome_results]
        exact List.mem_append_left _ h

/-- A schedule only appends to the result list. -/
theorem runPoolFrom_results_mono (exec : Course → CourseOutcome) :
    ∀ (sched : List PoolEvent) (st : PoolState) (r : CourseResult),
      r ∈ st.results → r ∈ (runPoolFrom exec st sched).results := by
  intro sched
  induction sched with
  | nil => exact fun st r h => h
  | cons ev rest ih =>
    intro st r h
    exact ih (poolStep exec st ev) r (poolStep_results_mono exec st ev r h)

/-- A step leaves any worker slot it does not settle unchanged. -/
theorem poolStep_other_slot (exec : Course → CourseOutcome) (st : PoolState)
    (ev : PoolEvent) (w : Nat) (hev : ev ≠ .finish w) :
    (poolStep exec st ev).workers[w]? = st.workers[w]? := by
  cases ev with
  | signal => rfl
  | finish w' =>
    have hne : w' ≠ w := fun heq => hev (heq ▸ rfl)
    show (finishWorker exec st w' st.workers[w']?).workers[w]? = st.workers[w]?
    cases hw' : st.workers[w']? with
    | none => rfl
    | some ph =>
      cases ph with
      | done => rfl
      | busy c =>
        show ((workerLoopTop (recordOutcome st c (exec c))).2.workers.set w'
          (workerLoopTop (recordOutcome st c (exec c))).1)[w]? = st.workers[w]?
        rw [List.getElem?_set_ne hne, workerLoopTop_workers, recordOutcome_workers]

/-- A worker that has exited its loop stays exited. -/
theorem poolStep_done_stable (exec : Course → CourseOutcome) (st : PoolState)
    (ev : PoolEvent) (w : Nat) (h : st.workers[w]? = some .done) :
    (poolStep exec st ev).workers[w]? = some .done := by
  by_cases hev : ev = .finish w
  · subst hev
    show (finishWorker exec st w st.workers[w]?).workers[w]? = some .done
    rw [h]
    exact h
  · rw [poolStep_other_slot exec st ev w hev]
    exact h

/-- A worker that has exited its loop stays exited over any schedule. -/
theorem runPoolFrom_done_stable (exec : Course → CourseOutcome) :
    ∀ (sched : List PoolEvent) (st : PoolState) (w : Nat),
      st.workers[w]? = some .done →
      (runPoolFrom exec st sched).workers[w]? = some .done := by
  intro sched
  induction sched with
  | nil => exact fun st w h => h
  | cons ev rest ih =>
    intro st w h
    exact ih (poolStep exec st ev) w (poolStep_done_stable exec st ev w h)

/-- Settling a suspended worker pushes exactly its course's result, and
leaves the worker either exited or suspended on a freshly dequeued
course. -/
theorem poolStep_finish_busy (exec : Course → CourseOutcome) (st : PoolState)
    (w : Nat) (c : Course) (hw : st.workers[w]? = some (.busy c)) :
    (poolStep exec st (.finish w)).results = st.results ++ [resultOfCourse exec c] ∧
    ((poolStep exec st (.finish w)).workers[w]? = some .done ∨
      ∃ c', (poolStep exec st (.finish w)).workers[w]? = some (.busy c')) := by
  have hwlt : w < st.workers.length := (List.getElem?_eq_some.mp hw).1
  have hwlen : (workerLoopTop (recordOutcome st c (exec c))).2.workers = st.workers := by
    rw [workerLoopTop_workers, recordOutcome_workers]
  show (finishWorker exec st w st.workers[w]?).results = _ ∧
    ((finishWorker exec st w st.workers[w]?).workers[w]? = some .done ∨
      ∃ c', (finishWorker exec st w st.workers[w]?).workers[w]? = some (.busy c'))
  rw [hw]
  constructor
  · show (workerLoopTop (recordOutcome st c (exec c))).2.results = _
    rw [workerLoopTop_results, recordOutcome_results]
  · cases hph : (workerLoopTop (recordOutcome st c (exec c))).1 with
    | done =>
      left
      show ((workerLoopTop (recordOutcome st c (exec c))).2.workers.set w
        (workerLoopTop (recordOutcome st c (exec c))).1)[w]? = some .done
      rw [hph, List.getElem?_set_self (by rw [hwlen]; exact hwlt)]
    | busy c' =>
      right
      refine ⟨c', ?_⟩
      show ((workerLoopTop (recordOutcome st c (exec c))).2.workers.set w
        (workerLoopTop (recordOutcome st c (exec c))).1)[w]? = some (.busy c')
      rw [hph, List.getElem?_set_self (by rw [hwlen]; exact hwlt)]

/-- A worker suspended on a course, in a run that ends with every worker
exited, contributes that course's result to the final result list and
ends exited. -/
theorem runPoolFrom_busy_resolves (exec : Course → CourseOutcome) :
    ∀ (sched : List PoolEvent) (st : PoolState) (w : Nat) (c : Course),
      st.workers[w]? = some (.busy c) →
      allWorkersDone (runPoolFrom exec st sched) = true →
      resultOfCourse exec c ∈ (runPoolFrom exec st sched).results ∧
      (runPoolFrom exec st sched).workers[w]? = some .done := by
  intro sched
  induction sched with
  | nil =>
    intro st w c hw hdone
    exfalso
    obtain ⟨hlt, hget⟩ := List.getElem?_eq_some.mp hw
    have hmem : WorkerPhase.busy c ∈ st.workers := hget ▸ List.getElem_mem hlt
    have := List.all_eq_true.mp hdone _ hmem
    simp [WorkerPhase.isBusy] at this
  | cons ev rest ih =>
    intro st w c hw hdone
    show resultOfCourse exec c ∈ (runPoolFrom exec (poolStep exec st ev) rest).results ∧ _
    by_cases hev : ev = .finish w
    · subst hev
      obtain ⟨hres, hslot⟩ := poolStep_finish_busy exec st w c hw
      have hmem : resultOfCourse exec c ∈ (poolStep exec st (.finish w)).results := by
        rw [hres]
        exact List.mem_append_right _ (List.mem_singleton.mpr rfl)
      rcases hslot with hdoneslot | ⟨c', hbusy⟩
      · exact ⟨runPoolFrom_results_mono exec rest _ _ hmem,
          runPoolFrom_done_stable exec rest _ w hdoneslot⟩
      · have htail := ih (poolStep exec st (.finish w)) w c' hbusy hdone
        exact ⟨runPoolFrom_results_mono exec rest _ _ hmem, htail.2⟩
    · have hslot : (poolStep exec st ev).workers[w]? = some (.busy c) := by
        rw [poolStep_other_slot exec st ev w hev]
        exact hw
      exact ih (poolStep exec st ev) w c hslot hdone

/-- Claim C1: for every course list and concurrency, once the shared
controller's `isShuttingDown` flag is set — at any point `mid` of a run of
`runWorkerPool`'s machine — no worker dequeues a further course from the
shared FIFO queue during the rest of the run (the dequeue trace is
frozen); and every course already claimed by a worker at that point is
still processed to completion: if the run ends with `Promise.all`
resolved (every worker exited), the claimed course's `CourseResult` is in
the returned result list and its worker has exited. -/
theorem c1_shutdown_stops_dispatch_and_drains
    (courses : List Course) (concurrency : Nat) (controller : ShutdownController)
    (exec : Course → CourseOutcome) (s1 s2 : List PoolEvent)
    (hmid : (runPoolFrom exec (poolStart courses concurrency controller) s1
      ).controller.isShuttingDown = true) :
    (runPoolFrom exec (runPoolFrom exec (poolStart courses concurrency controller) s1) s2
      ).dequeued =
      (runPoolFrom exec (poolStart courses concurrency controller) s1).dequeued ∧
    ∀ (w : Nat) (c : Course),
      (runPoolFrom exec (poolStart courses concurrency controller) s1
        ).workers[w]? = some (.busy c) →
      allWorkersDone (runPoolFrom exec
        (runPoolFrom exec (poolStart courses concurrency controller) s1) s2) = true →
      resultOfCourse exec c ∈ (runPoolFrom exec
        (runPoolFrom exec (poolStart courses concurrency controller) s1) s2).results ∧
      (runPoolFrom exec
        (runPoolFrom exec (poolStart courses concurrency controller) s1) s2
        ).workers[w]? = some .done := by
  constructor
  · exact (runPoolFrom_shutdown_frozen exec s2 _ hmid).1
  · intro w c hw hdone
    exact runPoolFrom_busy_resolves exec s2 _ w c hw hdone

/-- Witness for C1: two pending courses, one worker; the signal arrives
while course `/a` is in flight; the worker finishes `/a` (its result is
in the returned list), then exits without dequeuing `/b`. -/
theorem c1_shutdown_stops_dispatch_and_drains_witness :
    (runPoolFrom execCompleteAll
        (poolStart [⟨"/a", "a", [], "pending", false⟩, ⟨"/b", "b", [], "pending", false⟩]
          1 ⟨false, false⟩) [.signal]).controller.isShuttingDown = true ∧
    (runPoolFrom execCompleteAll
        (poolStart [⟨"/a", "a", [], "pending", false⟩, ⟨"/b", "b", [], "pending", false⟩]
          1 ⟨false, false⟩) [.signal]).workers[0]? =
      some (.busy ⟨"/a", "a", [], "pending", false⟩) ∧
    allWorkersDone (runPoolFrom execCompleteAll
      (runPoolFrom execCompleteAll
        (poolStart [⟨"/a", "a", [], "pending", false⟩, ⟨"/b", "b", [], "pending", false⟩]
          1 ⟨false, false⟩) [.signal]) [.finish 0]) = true ∧
    (runPoolFrom execCompleteAll
        (runPoolFrom execCompleteAll
          (poolStart [⟨"/a", "a", [], "pending", false⟩, ⟨"/b", "b", [], "pending", false⟩]
            1 ⟨false, false⟩) [.signal]) [.finish 0]).dequeued =
      (runPoolFrom execCompleteAll
        (poolStart [⟨"/a", "a", [], "pending", false⟩, ⟨"/b", "b", [], "pending", false⟩]
          1 ⟨false, false⟩) [.signal]).dequeued ∧
    resultOfCourse execCompleteAll ⟨"/a", "a", [], "pending", false⟩ ∈
      (runPoolFrom execCompleteAll
        (runPoolFrom execCompleteAll
          (poolStart [⟨"/a", "a", [], "pending", false⟩, ⟨"/b", "b", [], "pending", false⟩]
            1 ⟨false, false⟩) [.signal]) [.finish 0]).results ∧
    (runPoolFrom execCompleteAll
        (runPoolFrom execCompleteAll
          (poolStart [⟨"/a", "a", [], "pending", false⟩, ⟨"/b", "b", [], "pending", false⟩]
            1 ⟨false, false⟩) [.signal]) [.finish 0]).workers[0]? = some .done :=
  ⟨by decide, by decide, by decide,
    (c1_shutdown_stops_dispatch_and_drains
      [⟨"/a", "a", [], "pending", false⟩, ⟨"/b", "b", [], "pending", false⟩]
      1 ⟨false, false⟩ execCompleteAll [.signal] [.finish 0] (by decide)).1,
    ((c1_shutdown_stops_dispatch_and_drains
      [⟨"/a", "a", [], "pending", false⟩, ⟨"/b", "b", [], "pending", false⟩]
      1 ⟨false, false⟩ execCompleteAll [.signal] [.finish 0] (by decide)).2
      0 ⟨"/a", "a", [], "pending", false⟩ (by decide) (by decide)).1,
    ((c1_shutdown_stops_dispatch_and_drains
      [⟨"/a", "a", [], "pending", false⟩, ⟨"/b", "b", [], "pending", false⟩]
      1 ⟨false, false⟩ execCompleteAll [.signal] [.finish 0] (by decide)).2
      0 ⟨"/a", "a", [], "pending", false⟩ (by decide) (by decide)).2⟩

/-- Setting one worker slot adjusts the busy count by the slot's old and
new phases. -/
theorem countP_isBusy_set (l : List WorkerPhase) :
    ∀ (w : Nat) (a b : WorkerPhase), l[w]? = some a →
      (l.set w b).countP (fun ph => ph.isBusy) + (if a.isBusy then 1 else 0) =
        l.countP (fun ph => ph.isBusy) + (if b.isBusy then 1 else 0) := by
  induction l with
  | nil => intro w a b h; cases h
  | cons x xs ih =>
    intro w a b h
    cases w with
    | zero =>
      have hx : x = a := by simpa using h
      subst hx
      rw [List.set_cons_zero, List.countP_cons, List.countP_cons]
      omega
    | succ w' =>
      have h' : xs[w']? = some a := by simpa using h
      have hih := ih w' a b h'
      rw [List.set_cons_succ, List.countP_cons, List.countP_cons]
      omega

/-- The initial pool state satisfies the invariant when no shutdown was
requested before the pool started. -/
theorem initPoolState_inv (pendingCourses : List Course) (skippedCount : Nat)
    (controller : ShutdownController) (h : controller.isShuttingDown = false) :
    PoolInv pendingCourses.length skippedCount
      (initPoolState pendingCourses skippedCount controller) := by
  refine ⟨h, rfl, ?_, rfl, rfl, ?_⟩
  · simp [initPoolState, busyCount]
  · intro _ ph hmem
    simp [initPoolState] at hmem

/-- Exiting a previously suspended slot lowers the busy count by one. -/
theorem countP_isBusy_set_done (l : List WorkerPhase) (w : Nat) (c : Course)
    (h : l[w]? = some (.busy c)) :
    (l.set w .done).countP (fun ph => ph.isBusy) + 1 = l.countP (fun ph => ph.isBusy) := by
  have hc := countP_isBusy_set l w (.busy c) .done h
  simp only [show (WorkerPhase.busy c).isBusy = true from rfl,
    show WorkerPhase.done.isBusy = false from rfl, if_true, Bool.false_eq_true, if_false] at hc
  omega

/-- Re-suspending a previously suspended slot keeps the busy count. -/
theorem countP_isBusy_set_busy (l : List WorkerPhase) (w : Nat) (c c' : Course)
    (h : l[w]? = some (.busy c)) :
    (l.set w (.busy c')).countP (fun ph => ph.isBusy) = l.countP (fun ph => ph.isBusy) := by
  have hc := countP_isBusy_set l w (.busy c) (.busy c') h
  simp only [show (WorkerPhase.busy c).isBusy = true from rfl,
    show (WorkerPhase.busy c').isBusy = true from rfl, if_true] at hc
  omega

/-- One settle step preserves the invariant (signals excluded: the
invariant carries the not-shutting-down flag). -/
theorem poolStep_preserves_inv (exec : Course → CourseOutcome) (P S : Nat) (st : PoolState)
    (ev : PoolEvent) (hev : ev ≠ .signal) (hinv : PoolInv P S st) :
    PoolInv P S (poolStep exec st ev) := by
  obtain ⟨hflag, hcf, hcount, htot, hskip, hqueue⟩ := hinv
  unfold busyCount at hcount
  cases ev with
  | signal => exact absurd rfl hev
  | finish w =>
    show PoolInv P S (finishWorker exec st w st.workers[w]?)
    cases hw : st.workers[w]? with
    | none => exact ⟨hflag, hcf, by unfold busyCount; exact hcount, htot, hskip, hqueue⟩
    | some ph =>
      cases ph with
      | done => exact ⟨hflag, hcf, by unfold busyCount; exact hcount, htot, hskip, hqueue⟩
      | busy c =>
        rw [finishWorker_busy]
        have hres : (recordOutcome st c (exec c)).results =
            st.results ++ [resultOfCourse exec c] := recordOutcome_results exec st c
        have hreslen : (recordOutcome st c (exec c)).results.length =
            st.results.length + 1 := by rw [hres]; simp
        have hworkers : (recordOutcome st c (exec c)).workers = st.workers :=
          recordOutcome_workers st c (exec c)
        have hqueue1 : (recordOutcome st c (exec c)).queue = st.queue :=
          recordOutcome_queue st c (exec c)
        have hctl : (recordOutcome st c (exec c)).controller = st.controller :=
          recordOutcome_controller st c (exec c)
        have hcf1 := recordOutcome_completed_failed st c (exec c)
        have hts1 := recordOutcome_total_skipped st c (exec c)
        rcases workerLoopTop_char (recordOutcome st c (exec c)) with
          ⟨heq, hreason⟩ | ⟨c', rest, hq, _, heq⟩
        · -- the worker exits: shutdown is off, so the queue must be empty
          have hqe : st.queue = [] := by
            rcases hreason with hsd | hqnil
            · rw [hctl, hflag] at hsd
              cases hsd
            · rw [hqueue1] at hqnil
              exact hqnil
          rw [heq]
          refine ⟨?_, ?_, ?_, ?_, ?_, ?_⟩
          · show (recordOutcome st c (exec c)).controller.isShuttingDown = false
            rw [hctl]; exact hflag
          · show (recordOutcome st c (exec c)).stats.completed +
              (recordOutcome st c (exec c)).stats.failed =
              (recordOutcome st c (exec c)).results.length
            omega
          · show (recordOutcome st c (exec c)).results.length +
              busyCount { recordOutcome st c (exec c) with
                workers := (recordOutcome st c (exec c)).workers.set w WorkerPhase.done } +
              (recordOutcome st c (exec c)).queue.length = P
            unfold busyCount
            show _ + ((recordOutcome st c (exec c)).workers.set w WorkerPhase.done).countP
              (fun ph => ph.isBusy) + _ = P
            rw [hworkers, hqueue1, hreslen]
            have hset := countP_isBusy_set_done st.workers w c hw
            omega
          · show (recordOutcome st c (exec c)).stats.total = P + S
            rw [hts1.1]; exact htot
          · show (recordOutcome st c (exec c)).stats.skipped = S
            rw [hts1.2]; exact hskip
          · intro hne
            rw [hqueue1] at hne
            exact absurd hqe hne
        · -- the worker dequeues the next course and suspends
          have hstq : st.queue = c' :: rest := by rw [← hqueue1]; exact hq
          rw [heq]
          refine ⟨?_, ?_, ?_, ?_, ?_, ?_⟩
          · show (recordOutcome st c (exec c)).controller.isShuttingDown = false
            rw [hctl]; exact hflag
          · show (recordOutcome st c (exec c)).stats.completed +
              (recordOutcome st c (exec c)).stats.failed =
              (recordOutcome st c (exec c)).results.length
            omega
          · show (recordOutcome st c (exec c)).results.length +
              ((recordOutcome st c (exec c)).workers.set w (WorkerPhase.busy c')).countP
                (fun ph => ph.isBusy) + rest.length = P
            rw [hworkers, hreslen]
            have hset := countP_isBusy_set_busy st.workers w c c' hw
            rw [hstq] at hcount
            simp only [List.length_cons] at hcount
            omega
          · show (recordOutcome st c (exec c)).stats.total = P + S
            rw [hts1.1]; exact htot
          · show (recordOutcome st c (exec c)).stats.skipped = S
            rw [hts1.2]; exact hskip
          · intro hne ph hmem
            rcases List.mem_or_eq_of_mem_set (by rw [hworkers] at hmem; exact hmem) with
              hmemold | hphbusy
            · exact hqueue (by rw [hstq]; simp) ph hmemold
            · rw [hphbusy]; rfl

/-- One unfolding of the synchronous spawn loop. -/
theorem spawnWorkers_succ (concurrency : Nat) (st : PoolState) :
    spawnWorkers (concurrency + 1) st =
      { (workerLoopTop (spawnWorkers concurrency st)).2 with
        workers := (workerLoopTop (spawnWorkers concurrency st)).2.workers ++
          [(workerLoopTop (spawnWorkers concurrency st)).1] } := by
  unfold spawnWorkers
  rw [List.range_succ, List.foldl_append]
  rfl

/-- Starting one more worker preserves the invariant. -/
theorem spawnOne_preserves_inv (P S : Nat) (st : PoolState) (hinv : PoolInv P S st) :
    PoolInv P S
      { (workerLoopTop st).2 with
        workers := (workerLoopTop st).2.workers ++ [(workerLoopTop st).1] } := by
  obtain ⟨hflag, hcf, hcount, htot, hskip, hqueue⟩ := hinv
  unfold busyCount at hcount
  rcases workerLoopTop_char st with ⟨heq, hreason⟩ | ⟨c, rest, hq, _, heq⟩
  · -- the worker exits at once: shutdown is off, so the queue is empty
    have hqe : st.queue = [] := by
      rcases hreason with hsd | hqnil
      · rw [hflag] at hsd; cases hsd
      · exact hqnil
    rw [heq]
    refine ⟨hflag, hcf, ?_, htot, hskip, ?_⟩
    · show st.results.length + busyCount { st with workers := st.workers ++ [.done] } +
        st.queue.length = P
      unfold busyCount
      show st.results.length + (st.workers ++ [WorkerPhase.done]).countP
        (fun ph => ph.isBusy) + st.queue.length = P
      rw [List.countP_append]
      simp only [List.countP_cons, List.countP_nil,
        show WorkerPhase.done.isBusy = false from rfl, Bool.false_eq_true, if_false]
      omega
    · intro hne
      exact absurd hqe hne
  · -- the worker claims the head of the queue
    rw [heq]
    refine ⟨hflag, hcf, ?_, htot, hskip, ?_⟩
    · show st.results.length + ((st.workers ++ [WorkerPhase.busy c]).countP
        (fun ph => ph.isBusy)) + rest.length = P
      rw [List.countP_append]
      simp only [List.countP_cons, List.countP_nil,
        show (WorkerPhase.busy c).isBusy = true from rfl, if_true]
      rw [hq] at hcount
      simp only [List.length_cons] at hcount
      omega
    · intro hne ph hmem
      rcases List.mem_append.mp hmem with hmemold | hmemnew
      · exact hqueue (by rw [hq]; simp) ph hmemold
      · rw [List.mem_singleton.mp hmemnew]; rfl

/-- Spawning any number of workers preserves the invariant. -/
theorem spawnWorkers_preserves_inv (P S : Nat) :
    ∀ (concurrency : Nat) (st : PoolState), PoolInv P S st →
      PoolInv P S (spawnWorkers concurrency st) := by
  intro concurrency
  induction concurrency with
  | zero => exact fun st hinv => hinv
  | succ n ih =>
    intro st hinv
    rw [spawnWorkers_succ]
    exact spawnOne_preserves_inv P S (spawnWorkers n st) (ih st hinv)

/-- A signal-free schedule preserves the invariant. -/
theorem runPoolFrom_preserves_inv (exec : Course → CourseOutcome) (P S : Nat) :
    ∀ (sched : List PoolEvent) (st : PoolState),
      PoolEvent.signal ∉ sched → PoolInv P S st →
      PoolInv P S (runPoolFrom exec st sched) := by
  intro sched
  induction sched with
  | nil => exact fun st _ hinv => hinv
  | cons ev rest ih =>
    intro st hsig hinv
    have hev : ev ≠ .signal := fun heq => hsig (heq ▸ List.mem_cons_self ev rest)
    exact ih (poolStep exec st ev)
      (fun hmem => hsig (List.mem_cons_of_mem ev hmem))
      (poolStep_preserves_inv exec P S st ev hev hinv)

/-- Spawning adds exactly one worker slot per spawned worker. -/
theorem spawnWorkers_workers_length :
    ∀ (concurrency : Nat) (st : PoolState),
      (spawnWorkers concurrency st).workers.length = st.workers.length + concurrency := by
  intro concurrency
  induction concurrency with
  | zero => exact fun st => rfl
  | succ n ih =>
    intro st
    rw [spawnWorkers_succ]
    show ((workerLoopTop (spawnWorkers n st)).2.workers ++ [_]).length = _
    rw [List.length_append, workerLoopTop_workers, ih st]
    simp
    omega

/-- A step never adds or removes worker slots. -/
theorem poolStep_workers_length (exec : Course → CourseOutcome) (st : PoolState)
    (ev : PoolEvent) :
    (poolStep exec st ev).workers.length = st.workers.length := by
  cases ev with
  | signal => rfl
  | finish w =>
    show (finishWorker exec st w st.workers[w]?).workers.length = st.workers.length
    cases hw : st.workers[w]? with
    | none => rfl
    | some ph =>
      cases ph with
      | done => rfl
      | busy c =>
        show ((workerLoopTop (recordOutcome st c (exec c))).2.workers.set w
          (workerLoopTop (recordOutcome st c (exec c))).1).length = st.workers.length
        rw [List.length_set, workerLoopTop_workers, recordOutcome_workers]

/-- A schedule never adds or removes worker slots. -/
theorem runPoolFrom_workers_length (exec : Course → CourseOutcome) :
    ∀ (sched : List PoolEvent) (st : PoolState),
      (runPoolFrom exec st sched).workers.length = st.workers.length := by
  intro sched
  induction sched with
  | nil => exact fun st => rfl
  | cons ev rest ih =>
    intro st
    exact (ih (poolStep exec st ev)).trans (poolStep_workers_length exec st ev)

/-- Claim C2 as stated is false: with two pending courses and one worker,
a shutdown signal arriving while the first course is in flight lets the
pool return (all workers exited) with `completed + failed + skipped = 1`
but `total = 2` — the undispatched course counts toward `total` but
toward none of the other counters. -/
theorem c2_stats_shutdown_counterexample :
    allWorkersDone (runPoolFrom execCompleteAll
      (poolStart [⟨"/a", "a", [], "pending", false⟩, ⟨"/b", "b", [], "pending", false⟩]
        1 ⟨false, false⟩) [.signal, .finish 0]) = true ∧
    (runWorkerPool [⟨"/a", "a", [], "pending", false⟩, ⟨"/b", "b", [], "pending", false⟩]
        1 ⟨false, false⟩ execCompleteAll [.signal, .finish 0]).2 =
      some { total := 2, completed := 1, failed := 0, skipped := 0, remaining := 1 } ∧
    1 + 0 + 0 ≠ 2 := by
  decide

/-- Splitting a schedule splits the run. -/
theorem runPoolFrom_append (exec : Course → CourseOutcome) (st : PoolState)
    (s1 s2 : List PoolEvent) :
    runPoolFrom exec st (s1 ++ s2) = runPoolFrom exec (runPoolFrom exec st s1) s2 :=
  List.foldl_append _ _ _ _

/-- The queue never grows: one step keeps an empty queue empty. -/
theorem poolStep_queue_empty (exec : Course → CourseOutcome) (st : PoolState)
    (ev : PoolEvent) (h : st.queue = []) :
    (poolStep exec st ev).queue = [] := by
  cases ev with
  | signal => exact h
  | finish w =>
    show (finishWorker exec st w st.workers[w]?).queue = []
    cases hw : st.workers[w]? with
    | none => exact h
    | some ph =>
      cases ph with
      | done => exact h
      | busy c =>
        rw [finishWorker_busy]
        show (workerLoopTop (recordOutcome st c (exec c))).2.queue = []
        rcases workerLoopTop_char (recordOutcome st c (exec c)) with
          ⟨heq, _⟩ | ⟨c', rest, hq, _, heq⟩
        · rw [heq, recordOutcome_queue]
          exact h
        · rw [recordOutcome_queue, h] at hq
          cases hq
/-- Once the queue has drained it stays drained over any schedule,
signals included. -/
theorem runPoolFrom_queue_empty (exec : Course → CourseOutcome) :
    ∀ (sched : List PoolEvent) (st : PoolState), st.queue = [] →
      (runPoolFrom exec st sched).queue = [] := by
  intro sched
  induction sched with
  | nil => exact fun st h => h
  | cons ev rest ih =>
    intro st h
    exact ih (poolStep exec st ev) (poolStep_queue_empty exec st ev h)

/-- Every step — a signal included — preserves the conservation core. -/
theorem poolStep_preserves_cons (exec : Course → CourseOutcome) (P S : Nat) (st : PoolState)
    (ev : PoolEvent) (hc : PoolCons P S st) : PoolCons P S (poolStep exec st ev) := by
  obtain ⟨hcf, hcount, htot, hskip⟩ := hc
  unfold busyCount at hcount
  cases ev with
  | signal => exact ⟨hcf, by unfold busyCount; exact hcount, htot, hskip⟩
  | finish w =>
    show PoolCons P S (finishWorker exec st w st.workers[w]?)
    cases hw : st.workers[w]? with
    | none => exact ⟨hcf, by unfold busyCount; exact hcount, htot, hskip⟩
    | some ph =>
      cases ph with
      | done => exact ⟨hcf, by unfold busyCount; exact hcount, htot, hskip⟩
      | busy c =>
        rw [finishWorker_busy]
        have hreslen : (recordOutcome st c (exec c)).results.length =
            st.results.length + 1 := by rw [recordOutcome_results exec st c]; simp
        have hworkers : (recordOutcome st c (exec c)).workers = st.workers :=
          recordOutcome_workers st c (exec c)
        have hqueue1 : (recordOutcome st c (exec c)).queue = st.queue :=
          recordOutcome_queue st c (exec c)
        have hcf1 := recordOutcome_completed_failed st c (exec c)
        have hts1 := recordOutcome_total_skipped st c (exec c)
        rcases workerLoopTop_char (recordOutcome st c (exec c)) with
          ⟨heq, _⟩ | ⟨c', rest, hq, _, heq⟩
        · -- the worker exits: the queue is untouched
          rw [heq]
          refine ⟨?_, ?_, ?_, ?_⟩
          · show (recordOutcome st c (exec c)).stats.completed +
              (recordOutcome st c (exec c)).stats.failed =
              (recordOutcome st c (exec c)).results.length
            omega
          · show (recordOutcome st c (exec c)).results.length +
              busyCount { recordOutcome st c (exec c) with
                workers := (recordOutcome st c (exec c)).workers.set w WorkerPhase.done } +
              (recordOutcome st c (exec c)).queue.length = P
            unfold busyCount
            show _ + ((recordOutcome st c (exec c)).workers.set w WorkerPhase.done).countP
              (fun ph => ph.isBusy) + _ = P
            rw [hworkers, hqueue1, hreslen]
            have hset := countP_isBusy_set_done st.workers w c hw
            omega
          · show (recordOutcome st c (exec c)).stats.total = P + S
            rw [hts1.1]; exact htot
          · show (recordOutcome st c (exec c)).stats.skipped = S
            rw [hts1.2]; exact hskip
        · -- the worker dequeues the next course and suspends
          have hstq : st.queue = c' :: rest := by rw [← hqueue1]; exact hq
          rw [heq]
          refine ⟨?_, ?_, ?_, ?_⟩
          · show (recordOutcome st c (exec c)).stats.completed +
              (recordOutcome st c (exec c)).stats.failed =
              (recordOutcome st c (exec c)).results.length
            omega
          · show (recordOutcome st c (exec c)).results.length +
              ((recordOutcome st c (exec c)).workers.set w (WorkerPhase.busy c')).countP
                (fun ph => ph.isBusy) + rest.length = P
            rw [hworkers, hreslen]
            have hset := countP_isBusy_set_busy st.workers w c c' hw
            rw [hstq] at hcount
            simp only [List.length_cons] at hcount
            omega
          · show (recordOutcome st c (exec c)).stats.total = P + S
            rw [hts1.1]; exact htot
          · show (recordOutcome st c (exec c)).stats.skipped = S
            rw [hts1.2]; exact hskip

/-- Starting one more worker preserves the conservation core. -/
theorem spawnOne_preserves_cons (P S : Nat) (st : PoolState) (hc : PoolCons P S st) :
    PoolCons P S
      { (workerLoopTop st).2 with
        workers := (workerLoopTop st).2.workers ++ [(workerLoopTop st).1] } := by
  obtain ⟨hcf, hcount, htot, hskip⟩ := hc
  unfold busyCount at hcount
  rcases workerLoopTop_char st with ⟨heq, _⟩ | ⟨c, rest, hq, _, heq⟩
  · rw [heq]
    refine ⟨hcf, ?_, htot, hskip⟩
    show st.results.length + ((st.workers ++ [WorkerPhase.done]).countP
      (fun ph => ph.isBusy)) + st.queue.length = P
    rw [List.countP_append]
    simp only [List.countP_cons, List.countP_nil,
      show WorkerPhase.done.isBusy = false from rfl, Bool.false_eq_true, if_false]
    omega
  · rw [heq]
    refine ⟨hcf, ?_, htot, hskip⟩
    show st.results.length + ((st.workers ++ [WorkerPhase.busy c]).countP
      (fun ph => ph.isBusy)) + rest.length = P
    rw [List.countP_append]
    simp only [List.countP_cons, List.countP_nil,
      show (WorkerPhase.busy c).isBusy = true from rfl, if_true]
    rw [hq] at hcount
    simp only [List.length_cons] at hcount
    omega

/-- Spawning any number of workers preserves the conservation core. -/
theorem spawnWorkers_preserves_cons (P S : Nat) :
    ∀ (concurrency : Nat) (st : PoolState), PoolCons P S st →
      PoolCons P S (spawnWorkers concurrency st) := by
  intro concurrency
  induction concurrency with
  | zero => exact fun st hc => hc
  | succ n ih =>
    intro st hc
    rw [spawnWorkers_succ]
    exact spawnOne_preserves_cons P S (spawnWorkers n st) (ih st hc)

/-- Every schedule — signals included — preserves the conservation core. -/
theorem runPoolFrom_preserves_cons (exec : Course → CourseOutcome) (P S : Nat) :
    ∀ (sched : List PoolEvent) (st : PoolState), PoolCons P S st →
      PoolCons P S (runPoolFrom exec st sched) := by
  intro sched
  induction sched with
  | nil => exact fun st hc => hc
  | cons ev rest ih =>
    intro st hc
    exact ih (poolStep exec st ev) (poolStep_preserves_cons exec P S st ev hc)

/-- The initial pool state satisfies the conservation core. -/
theorem initPoolState_cons (pendingCourses : List Course) (skippedCount : Nat)
    (controller : ShutdownController) :
    PoolCons pendingCourses.length skippedCount
      (initPoolState pendingCourses skippedCount controller) := by
  refine ⟨rfl, ?_, rfl, rfl⟩
  simp [initPoolState, busyCount]

/-- Claim C2 amended: for every course list, concurrency at least 1, every
per-course outcome and any queue ordering, **provided no shutdown signal
arrives before the queue drains** — the pool starts with the flag off and
at every signal in the schedule the queue has already emptied — when the
pool returns (every worker exited) the final stats satisfy
`completed + failed + skipped = total`; and `runWorkerPool` returns
exactly this machine's results with these stats (no stats object exists
when nothing was pending). -/
theorem c2_stats_conservation
    (courses : List Course) (concurrency : Nat) (controller : ShutdownController)
    (exec : Course → CourseOutcome) (sched : List PoolEvent)
    (hconc : 1 ≤ concurrency)
    (hctl : controller.isShuttingDown = false)
    (hsig : ∀ s1 s2, sched = s1 ++ PoolEvent.signal :: s2 →
      (runPoolFrom exec (poolStart courses concurrency controller) s1).queue = [])
    (hdone : allWorkersDone
      (runPoolFrom exec (poolStart courses concurrency controller) sched) = true) :
    (runPoolFrom exec (poolStart courses concurrency controller) sched).stats.completed +
      (runPoolFrom exec (poolStart courses concurrency controller) sched).stats.failed +
      (runPoolFrom exec (poolStart courses concurrency controller) sched).stats.skipped =
      (runPoolFrom exec (poolStart courses concurrency controller) sched).stats.total ∧
    runWorkerPool courses concurrency controller exec sched =
      ((runPoolFrom exec (poolStart courses concurrency controller) sched).results,
        if (courses.filter fun c => c.state == "pending").length = 0 then none
        else some (runPoolFrom exec (poolStart courses concurrency controller) sched).stats) := by
  have hcons : PoolCons (courses.filter fun c => c.state == "pending").length
      (courses.filter fun c => c.state == "skipped").length
      (runPoolFrom exec (poolStart courses concurrency controller) sched) :=
    runPoolFrom_preserves_cons exec _ _ sched _
      (spawnWorkers_preserves_cons _ _ concurrency _ (initPoolState_cons _ _ controller))
  obtain ⟨hcf, hcount, htot, hskip⟩ := hcons
  have hbusy0 : busyCount (runPoolFrom exec (poolStart courses concurrency controller) sched)
      = 0 := by
    unfold busyCount
    rw [List.countP_eq_zero]
    intro ph hmem
    have := List.all_eq_true.mp hdone ph hmem
    simp at this
    simp [this]
  have hwlen : (runPoolFrom exec (poolStart courses concurrency controller) sched
      ).workers.length = concurrency := by
    rw [runPoolFrom_workers_length]
    show (spawnWorkers concurrency (initPoolState _ _ _)).workers.length = _
    rw [spawnWorkers_workers_length]
    simp [initPoolState]
  have hqnil : (runPoolFrom exec (poolStart courses concurrency controller) sched).queue
      = [] := by
    by_cases hmem : PoolEvent.signal ∈ sched
    · -- a signal occurs: at that point the queue had drained, and it never grows
      obtain ⟨s1, s2, hsplit⟩ := List.append_of_mem hmem
      have hq1 := hsig s1 s2 hsplit
      rw [hsplit, runPoolFrom_append]
      exact runPoolFrom_queue_empty exec (.signal :: s2) _ hq1
    · -- no signal at all: a worker only exits once the queue is empty
      have hinv : PoolInv (courses.filter fun c => c.state == "pending").length
          (courses.filter fun c => c.state == "skipped").length
          (runPoolFrom exec (poolStart courses concurrency controller) sched) :=
        runPoolFrom_preserves_inv exec _ _ sched _ hmem
          (spawnWorkers_preserves_inv _ _ concurrency _
            (initPoolState_inv _ _ controller hctl))
      obtain ⟨_, _, _, _, _, hqueue⟩ := hinv
      by_contra hne
      have hall := hqueue hne
      obtain ⟨ph, hmemw⟩ : ∃ ph, ph ∈ (runPoolFrom exec
          (poolStart courses concurrency controller) sched).workers := by
        cases hw : (runPoolFrom exec (poolStart courses concurrency controller) sched
          ).workers with
        | nil => rw [hw] at hwlen; simp at hwlen; omega
        | cons x xs => exact ⟨x, List.mem_cons_self x xs⟩
      have hb := hall ph hmemw
      have hnb := List.all_eq_true.mp hdone ph hmemw
      rw [hb] at hnb
      cases hnb
  have hreslen : (runPoolFrom exec (poolStart courses concurrency controller) sched
      ).results.length = (courses.filter fun c => c.state == "pending").length := by
    rw [hbusy0, hqnil] at hcount
    simpa using hcount
  constructor
  · omega
  · unfold runWorkerPool
    by_cases hP : (courses.filter fun c => c.state == "pending").length = 0
    · rw [if_pos hP, if_pos hP]
      have hresnil : (runPoolFrom exec (poolStart courses concurrency controller) sched
          ).results = [] := by
        rw [← List.length_eq_zero]
        omega
      rw [hresnil]
    · rw [if_neg hP, if_neg hP]

/-- Witness for the amended C2 at a schedule that contains a signal
**after** the queue has drained: one pending and one skipped course, one
worker (the queue empties at spawn), the course settles, then the signal
arrives; final stats `total = 2 = 1 + 0 + 1`. -/
theorem c2_stats_conservation_witness :
    1 ≤ 1 ∧
    (ShutdownController.isShuttingDown ⟨false, false⟩ = false) ∧
    (runPoolFrom execCompleteAll
      (poolStart [⟨"/a", "a", [], "pending", false⟩, ⟨"/c", "c", [], "skipped", false⟩]
        1 ⟨false, false⟩) [PoolEvent.finish 0]).queue = [] ∧
    allWorkersDone (runPoolFrom execCompleteAll
      (poolStart [⟨"/a", "a", [], "pending", false⟩, ⟨"/c", "c", [], "skipped", false⟩]
        1 ⟨false, false⟩) [.finish 0, .signal]) = true ∧
    ((runPoolFrom execCompleteAll
        (poolStart [⟨"/a", "a", [], "pending", false⟩, ⟨"/c", "c", [], "skipped", false⟩]
          1 ⟨false, false⟩) [.finish 0, .signal]).stats.completed +
      (runPoolFrom execCompleteAll
        (poolStart [⟨"/a", "a", [], "pending", false⟩, ⟨"/c", "c", [], "skipped", false⟩]
          1 ⟨false, false⟩) [.finish 0, .signal]).stats.failed +
      (runPoolFrom execCompleteAll
        (poolStart [⟨"/a", "a", [], "pending", false⟩, ⟨"/c", "c", [], "skipped", false⟩]
          1 ⟨false, false⟩) [.finish 0, .signal]).stats.skipped =
      (runPoolFrom execCompleteAll
        (poolStart [⟨"/a", "a", [], "pending", false⟩, ⟨"/c", "c", [], "skipped", false⟩]
          1 ⟨false, false⟩) [.finish 0, .signal]).stats.total) :=
  ⟨by decide, rfl, by decide, by decide,
    (c2_stats_conservation
      [⟨"/a", "a", [], "pending", false⟩, ⟨"/c", "c", [], "skipped", false⟩]
      1 ⟨false, false⟩ execCompleteAll [.finish 0, .signal] (by decide) rfl
      (fun s1 _ _ =>
        runPoolFrom_queue_empty execCompleteAll s1
          (poolStart [⟨"/a", "a", [], "pending", false⟩, ⟨"/c", "c", [], "skipped", false⟩]
            1 ⟨false, false⟩) (by decide))
      (by decide)).1⟩
